import Mathlib

/-!
Verification of the NullG-Models data-modeling layer.

This file shallowly embeds the runtime core of the repository:

* the recursive MongoDB query sanitizers `validate_filter` and
  `validate_pipeline` from `NullgModels/ServerModels.py`;
* the tagged-variant payload dispatch `validate_totalwar_type` of
  `UnitData` and `UnitDataExtended` from `NullgModels/BattletechModels.py`,
  together with the pydantic schemas of the five Total War branch models
  from `NullgModels/TotalWarModels.py` that the dispatch instantiates;
* the field-catalog builder `walk_model_fields` and its helpers
  `get_type_name` / `DEFAULT_OPERATORS` from `Utils/introspection.py`.

JSON-shaped runtime data is modelled by `JValue`; Python floats are modelled
as exact rationals (the inputs exercised here are small integers, which every
binary floating-point format represents exactly).
-/

/-- A JSON-shaped Python runtime value: the decode input of the validators.
Python distinguishes `int`, `float` and `bool` values, so the embedding does
too. -/
inductive JValue where
  | null
  | bool (b : Bool)
  | int (n : Int)
  | float (q : Rat)
  | str (s : String)
  | arr (xs : List JValue)
  | obj (kvs : List (String × JValue))

/-- Whether a `JValue` is a mapping (`isinstance(v, dict)` in Python). -/
def JValue.isObj : JValue → Bool
  | .obj _ => true
  | _ => false

/-- Whether a `JValue` is a scalar: neither a mapping nor a sequence. -/
def JValue.isScalar : JValue → Bool
  | .obj _ => false
  | .arr _ => false
  | _ => true

/-- Python `key.startswith("$")`: the first character of the string is the
operator sentinel.  (Spelled out on the character list because the kernel
cannot evaluate `String.startsWith`.) -/
def startsWithDollar (key : String) : Bool :=
  match key.data with
  | [] => false
  | c :: _ => c == '$'

/-- The filter operator allow-list `ALLOWED_OPERATORS` of
`NullgModels/ServerModels.py`. -/
def ALLOWED_OPERATORS : List String :=
  ["$eq", "$ne", "$gt", "$gte", "$lt", "$lte",
   "$in", "$nin", "$regex", "$exists",
   "$and", "$or", "$nor", "$not"]

/-- The pipeline stage deny-list `DISALLOWED_OPERATORS` of
`NullgModels/ServerModels.py`. -/
def DISALLOWED_OPERATORS : List String :=
  ["$merge", "$out"]

/-- The rejection test applied by `validate_filter` to a mapping key:
`key.startswith("$") and key not in ALLOWED_OPERATORS`. -/
def badFilterKey (key : String) : Bool :=
  startsWithDollar key && !(ALLOWED_OPERATORS.contains key)

/-- The rejection test applied by `validate_pipeline` to a mapping key:
`key.startswith("$") and key in DISALLOWED_OPERATORS`. -/
def badPipelineKey (key : String) : Bool :=
  startsWithDollar key && DISALLOWED_OPERATORS.contains key

mutual
/-- Embedding of `validate_filter` (ServerModels.py).  Returns `none` when the
filter is accepted and `some key` for the key named by the raised
`ValueError("Operator ... is not allowed.")`.  The recursive call on a value
is unguarded here: in the source it is guarded by
`isinstance(value, (dict, list))`, and `validate_filter` returns `none` on
every scalar, so the two formulations agree. -/
def validate_filter : JValue → Option String
  | .obj kvs => validateFilterPairs kvs
  | .arr xs => validateFilterItems xs
  | _ => none
termination_by structural v => v

/-- The `for key, value in filter_dict.items()` loop of `validate_filter`. -/
def validateFilterPairs : List (String × JValue) → Option String
  | [] => none
  | (key, value) :: rest =>
    if badFilterKey key then
      some key
    else
      match validate_filter value with
      | some e => some e
      | none => validateFilterPairs rest
termination_by structural kvs => kvs

/-- The `for item in filter_dict` loop of `validate_filter`. -/
def validateFilterItems : List JValue → Option String
  | [] => none
  | x :: xs =>
    match validate_filter x with
    | some e => some e
    | none => validateFilterItems xs
termination_by structural xs => xs
end

mutual
/-- Embedding of `validate_pipeline` (ServerModels.py).  Returns `none` when
the pipeline is accepted and `some key` for the stage key named by the raised
`ValueError("Aggregate Operator ... is not allowed.")`. -/
def validate_pipeline : JValue → Option String
  | .obj kvs => validatePipelinePairs kvs
  | .arr xs => validatePipelineItems xs
  | _ => none
termination_by structural v => v

/-- The `for key, value in pipeline_list.items()` loop of
`validate_pipeline`. -/
def validatePipelinePairs : List (String × JValue) → Option String
  | [] => none
  | (key, value) :: rest =>
    if badPipelineKey key then
      some key
    else
      match validate_pipeline value with
      | some e => some e
      | none => validatePipelinePairs rest
termination_by structural kvs => kvs

/-- The `for item in pipeline_list` loop of `validate_pipeline`. -/
def validatePipelineItems : List JValue → Option String
  | [] => none
  | x :: xs =>
    match validate_pipeline x with
    | some e => some e
    | none => validatePipelineItems xs
termination_by structural xs => xs
end

mutual
/-- All mapping keys reachable from a value, in the visiting order of the
validators: a mapping contributes each key followed by the keys reachable
from its value, a sequence contributes the keys of its items, scalars
contribute nothing. -/
def reachableKeys : JValue → List String
  | .obj kvs => reachableKeysPairs kvs
  | .arr xs => reachableKeysItems xs
  | _ => []
termination_by structural v => v

/-- Keys reachable from the entries of a mapping. -/
def reachableKeysPairs : List (String × JValue) → List String
  | [] => []
  | (key, value) :: rest => key :: (reachableKeys value ++ reachableKeysPairs rest)
termination_by structural kvs => kvs

/-- Keys reachable from the items of a sequence. -/
def reachableKeysItems : List JValue → List String
  | [] => []
  | x :: xs => reachableKeys x ++ reachableKeysItems xs
termination_by structural xs => xs
end

/-- The filter of spec scenario form: a conjunction whose second branch uses
a key outside the allow-list. -/
def nestedBadFilter : JValue :=
  .obj [("$and", .arr [
    .obj [("mass", .obj [("$gte", .int 50)])],
    .obj [("$merge", .obj [])]])]

/-- The pipeline of the spec scenario:
`[{"$match": {"mass": {"$gte": 50}}}, {"$out": "otherCollection"}]`. -/
def scenarioPipeline : JValue :=
  .arr [
    .obj [("$match", .obj [("mass", .obj [("$gte", .int 50)])])],
    .obj [("$out", .str "otherCollection")]]

-- ===================================================================
-- Tagged-variant dispatch: UnitData.validate_totalwar_type
-- ===================================================================

/-- The `UnitType` enumeration of `NullgModels/NullGEnums.py`:
aerospace = 0, dropship = 1, mech = 2, infantry = 3, vehicle = 4. -/
inductive UnitType where
  | aerospace
  | dropship
  | mech
  | infantry
  | vehicle
  deriving DecidableEq

/-- The Python constructor call `UnitType(n)`: succeeds exactly on the five
member codes, raises `ValueError` (here `none`) otherwise. -/
def UnitType.ofInt? : Int → Option UnitType
  | 0 => some .aerospace
  | 1 => some .dropship
  | 2 => some .mech
  | 3 => some .infantry
  | 4 => some .vehicle
  | _ => none

/-- Python `isinstance(x, int)`.  Python `bool` is a subclass of `int`, so
boolean values also pass this test. -/
def pyIsInstInt : JValue → Bool
  | .int _ => true
  | .bool _ => true
  | _ => false

/-- The integer value of a Python int (with `True = 1`, `False = 0`); only
meaningful when `pyIsInstInt` holds. -/
def pyIntValue : JValue → Int
  | .int n => n
  | .bool b => if b then 1 else 0
  | _ => 0

/-- Modelled from the spec: `NullgModels/Constants.py` is absent from the
source tree; per the spec the variant family is keyed by the sibling
discriminator field `unitType`, which fixes `FIELD_UNIT_TYPE`. -/
def FIELD_UNIT_TYPE : String := "unitType"

/-- A typed value produced by validating raw JSON data against a pydantic
model (the result of a model constructor call). -/
inductive TValue where
  | vNone
  | vBool (b : Bool)
  | vInt (n : Int)
  | vFloat (q : Rat)
  | vStr (s : String)
  | vEnum (ename : String) (code : Int)
  | vStrEnum (ename : String) (val : String)
  | vList (xs : List TValue)
  | vDict (kvs : List (String × TValue))
  | vModel (mname : String) (fields : List (String × TValue))
  | vOpaque (raw : JValue)

mutual
/-- A Python type annotation as used by the pydantic models of this
repository.  `pyunion` is kept flattened, as Python's `typing` flattens
nested unions; `Optional[X]` is `pyunion [X, pynone]`.  `pynamed` is an
opaque class reference used for classes that no claim's evaluation path
reaches (the spec treats the record shapes as an opaque schema graph). -/
inductive PyType where
  | pystr
  | pyint
  | pyfloat
  | pybool
  | pyany
  | pynone
  | pylist (t : PyType)
  | pydict (k v : PyType)
  | pyunion (ts : List PyType)
  | pymodel (mname : String) (fields : List PyField)
  | pyenum (ename : String) (codes : List Int)
  | pystrenum (ename : String) (vals : List String)
  | pyliteral (ns : List Int)
  | pynamed (cname : String)

/-- A declared pydantic model field: name, annotation, default value (used
as-is, without validation, when the key is absent), description and
stringified examples from the `Field(...)` declaration. -/
inductive PyField where
  | mk (fname : String) (ann : PyType) (dflt : TValue)
      (descr : Option String) (examples : List String)
end

/-- Shorthand for `Optional[X]`, that is `Union[X, None]`. -/
def pyopt (t : PyType) : PyType := .pyunion [t, .pynone]

/-- Shorthand for a transcribed field whose description and examples are
omitted: no claim inspects them, only annotations, defaults and field order
are load-bearing for the dispatch and parse claims. -/
def fld (fname : String) (ann : PyType) (dflt : TValue) : PyField :=
  .mk fname ann dflt none []

/-- Python dict lookup `d[key]` / `key in d` on a mapping, first match. -/
def pyDictGet : List (String × JValue) → String → Option JValue
  | [], _ => none
  | (k, v) :: rest, key => if k = key then some v else pyDictGet rest key

/-- Lookup in a typed record's field list. -/
def lookupTV : List (String × TValue) → String → Option TValue
  | [], _ => none
  | (k, v) :: rest, key => if k = key then some v else lookupTV rest key

theorem pyDictGet_sizeOf (kvs : List (String × JValue)) (key : String) :
    sizeOf (pyDictGet kvs key) ≤ sizeOf kvs := by
  induction kvs with
  | nil => simp [pyDictGet]
  | cons kv rest ih =>
    obtain ⟨k, w⟩ := kv
    by_cases hk : k = key
    · simp [pyDictGet, hk]
      omega
    · simp [pyDictGet, hk]
      omega

mutual
/-- Validation of a raw JSON value against a Python annotation, modelling
pydantic v2 default (lax) mode as exercised by this repository: ints are
accepted for float fields, unions try members left to right, nested models
validate their declared fields against the raw mapping ignoring extra keys
(`model_config` sets `extra="ignore"`), enum and `Literal` fields check
membership, and opaque class references accept the value unchanged.
Lax string-to-number coercions are not modelled; no claim exercises them. -/
def coerce : PyType → JValue → Except String TValue
  | .pystr, .str s => .ok (.vStr s)
  | .pystr, _ => .error "str expected"
  | .pyint, .int n => .ok (.vInt n)
  | .pyint, .float q => if q.den = 1 then .ok (.vInt q.num) else .error "int expected"
  | .pyint, _ => .error "int expected"
  | .pyfloat, .int n => .ok (.vFloat n)
  | .pyfloat, .float q => .ok (.vFloat q)
  | .pyfloat, _ => .error "float expected"
  | .pybool, .bool b => .ok (.vBool b)
  | .pybool, _ => .error "bool expected"
  | .pyany, v => .ok (.vOpaque v)
  | .pynone, .null => .ok .vNone
  | .pynone, _ => .error "none expected"
  | .pylist t, .arr xs =>
    (match coerceItems t xs with
     | .error e => .error e
     | .ok rs => .ok (.vList rs))
  | .pylist _, _ => .error "list expected"
  | .pydict _ vt, .obj kvs =>
    (match coerceDictVals vt kvs with
     | .error e => .error e
     | .ok rs => .ok (.vDict rs))
  | .pydict _ _, _ => .error "dict expected"
  | .pyunion ts, v => coerceUnion ts v
  | .pymodel mname fields, .obj kvs =>
    (match parseFields fields kvs with
     | .error e => .error e
     | .ok rs => .ok (.vModel mname rs))
  | .pymodel _ _, _ => .error "model expected"
  | .pyenum ename codes, .int n =>
      if codes.contains n then .ok (.vEnum ename n) else .error "enum code"
  | .pyenum _ _, _ => .error "enum expected"
  | .pystrenum ename vals, .str s =>
      if vals.contains s then .ok (.vStrEnum ename s) else .error "enum value"
  | .pystrenum _ _, _ => .error "enum expected"
  | .pyliteral ns, .int n =>
      if ns.contains n then .ok (.vInt n) else .error "literal"
  | .pyliteral _, _ => .error "literal expected"
  | .pynamed _, v => .ok (.vOpaque v)
termination_by t v => sizeOf t + sizeOf v

/-- Elementwise validation of a sequence. -/
def coerceItems : PyType → List JValue → Except String (List TValue)
  | _, [] => .ok []
  | t, x :: xs =>
    match coerce t x with
    | .error e => .error e
    | .ok r =>
      match coerceItems t xs with
      | .error e => .error e
      | .ok rs => .ok (r :: rs)
termination_by t xs => sizeOf t + sizeOf xs

/-- Valuewise validation of a mapping. -/
def coerceDictVals : PyType → List (String × JValue) → Except String (List (String × TValue))
  | _, [] => .ok []
  | vt, (k, v) :: rest =>
    match coerce vt v with
    | .error e => .error e
    | .ok r =>
      match coerceDictVals vt rest with
      | .error e => .error e
      | .ok rs => .ok ((k, r) :: rs)
termination_by vt kvs => sizeOf vt + sizeOf kvs

/-- Left-to-right union validation. -/
def coerceUnion : List PyType → JValue → Except String TValue
  | [], _ => .error "no union member matched"
  | t :: ts, v =>
    match coerce t v with
    | .ok r => .ok r
    | .error _ => coerceUnion ts v
termination_by ts v => sizeOf ts + sizeOf v

/-- Validation of one declared field from its lookup result: the declared
default on absence, coercion of the raw value when present. -/
def parseField1 : PyType → TValue → Option JValue → Except String TValue
  | _, dflt, none => .ok dflt
  | ann, _, some v => coerce ann v
termination_by ann _ oval => sizeOf ann + sizeOf oval

/-- Validation of the declared fields of a model against a raw mapping:
declared order, default on absence, extra keys ignored. -/
def parseFields : List PyField → List (String × JValue) → Except String (List (String × TValue))
  | [], _ => .ok []
  | .mk fname ann dflt _ _ :: rest, kvs =>
    match parseField1 ann dflt (pyDictGet kvs fname) with
    | .error e => .error e
    | .ok r =>
      match parseFields rest kvs with
      | .error e => .error e
      | .ok rs => .ok ((fname, r) :: rs)
termination_by fs kvs => sizeOf fs + sizeOf kvs
decreasing_by
  all_goals have := pyDictGet_sizeOf kvs fname
  all_goals simp
  all_goals omega
end

-- Transcribed pydantic schemas from `NullgModels/TotalWarModels.py`.
-- Field order follows pydantic v2 `model_fields`: parent fields first in
-- declaration order, a field redeclared by a subclass keeps the parent's
-- position, new subclass fields follow.

/-- Fields of `TotalWarBasicComponent`. -/
def totalWarBasicComponentFields : List PyField :=
  [fld "name" (pyopt .pystr) .vNone,
   fld "id" (pyopt .pystr) .vNone,
   fld "techbase" (pyopt .pystr) .vNone,
   fld "equipmentTypeId" (pyopt (.pyliteral [0, 3, 5, 6, 8, 4])) .vNone]

/-- Fields of `TotalWarArmorComponent` (subclass of the basic component;
`equipmentTypeId` is redeclared as `Optional[int]` with default 0). -/
def totalWarArmorComponentFields : List PyField :=
  [fld "name" (pyopt .pystr) .vNone,
   fld "id" (pyopt .pystr) .vNone,
   fld "techbase" (pyopt .pystr) .vNone,
   fld "equipmentTypeId" (pyopt .pyint) (.vInt 0),
   fld "barRating" (pyopt .pyint) (.vInt 10)]

/-- Fields of `TotalWarEngineComponent` (`equipmentTypeId` default 3). -/
def totalWarEngineComponentFields : List PyField :=
  [fld "name" (pyopt .pystr) .vNone,
   fld "id" (pyopt .pystr) .vNone,
   fld "techbase" (pyopt .pystr) .vNone,
   fld "equipmentTypeId" (pyopt .pyint) (.vInt 3),
   fld "rating" (pyopt .pyint) .vNone,
   fld "type" (pyopt .pystr) .vNone]

/-- Fields of `TotalWarStructureComponent` (`equipmentTypeId` default 5). -/
def totalWarStructureComponentFields : List PyField :=
  [fld "name" (pyopt .pystr) .vNone,
   fld "id" (pyopt .pystr) .vNone,
   fld "techbase" (pyopt .pystr) .vNone,
   fld "equipmentTypeId" (pyopt .pyint) (.vInt 5)]

/-- Fields of `TotalWarMyomerComponent` (`equipmentTypeId` default 8). -/
def totalWarMyomerComponentFields : List PyField :=
  [fld "name" (pyopt .pystr) .vNone,
   fld "id" (pyopt .pystr) .vNone,
   fld "techbase" (pyopt .pystr) .vNone,
   fld "equipmentTypeId" (pyopt .pyint) (.vInt 8)]

/-- Fields of `TotalWarGyroComponent` (`equipmentTypeId` default 4). -/
def totalWarGyroComponentFields : List PyField :=
  [fld "name" (pyopt .pystr) .vNone,
   fld "id" (pyopt .pystr) .vNone,
   fld "techbase" (pyopt .pystr) .vNone,
   fld "equipmentTypeId" (pyopt .pyint) (.vInt 4)]

/-- Fields of `TotalWarCockpitComponent` (`equipmentTypeId` default 6). -/
def totalWarCockpitComponentFields : List PyField :=
  [fld "name" (pyopt .pystr) .vNone,
   fld "id" (pyopt .pystr) .vNone,
   fld "techbase" (pyopt .pystr) .vNone,
   fld "equipmentTypeId" (pyopt .pyint) (.vInt 6)]

/-- Fields of `TotalWarHeatSinkComponent` (`equipmentTypeId` default 10). -/
def totalWarHeatSinkComponentFields : List PyField :=
  [fld "name" (pyopt .pystr) .vNone,
   fld "id" (pyopt .pystr) .vNone,
   fld "techbase" (pyopt .pystr) .vNone,
   fld "equipmentTypeId" (pyopt .pyint) (.vInt 10),
   fld "type" (pyopt .pyint) (.vInt 1),
   fld "count" (pyopt .pyint) (.vInt 0),
   fld "criticalFree" (pyopt .pyint) (.vInt 0),
   fld "engineBase" (pyopt .pyint) (.vInt 0),
   fld "omniBase" (pyopt .pyint) (.vInt 0)]

/-- Fields of `TotalWarBayBaseItem`. -/
def totalWarBayBaseItemFields : List PyField :=
  [fld "name" (pyopt .pystr) .vNone,
   fld "value" (pyopt .pyfloat) .vNone]

/-- Fields of `TotalWarBayExtendedItem`. -/
def totalWarBayExtendedItemFields : List PyField :=
  totalWarBayBaseItemFields ++
  [fld "id" (pyopt .pystr) .vNone,
   fld "doors" (pyopt .pyint) .vNone]

/-- Fields of `TotalWarArmorLocation`. -/
def totalWarArmorLocationFields : List PyField :=
  [fld "armor" (pyopt .pystr) .vNone,
   fld "location" (pyopt .pystr) .vNone,
   fld "value" (pyopt .pyint) .vNone]

/-- Fields of `TotalWarEquipmentItem`.  The annotations are bare `str`, with
`default=None` supplied via `Field(...)`: pydantic uses such defaults as-is
without validating them. -/
def totalWarEquipmentItemFields : List PyField :=
  [fld "id" .pystr .vNone,
   fld "name" .pystr .vNone,
   fld "location" .pystr .vNone,
   fld "options" .pystr .vNone,
   fld "type" (.pystrenum "TotalWarEquipmentItemType"
     ["ammo", "equipment", "bay", "weaponbay"]) .vNone]

/-- Fields of `TotalWarCriticalLocationItem`. -/
def totalWarCriticalLocationItemFields : List PyField :=
  [fld "location" (pyopt .pystr) .vNone,
   fld "slots" (pyopt (.pylist (.pyunion [.pystr, .pynone]))) .vNone]

/-- The `TotalWarEngineComponent()` instance built by `default_factory` for
`engine` fields: every component field takes its own declared default. -/
def engineComponentDefault : TValue :=
  .vModel "TotalWarEngineComponent"
    [("name", .vNone), ("id", .vNone), ("techbase", .vNone),
     ("equipmentTypeId", .vInt 3), ("rating", .vNone), ("type", .vNone)]

/-- Fields of the abstract base `TotalWarUnitDataBase`, in declaration
order.  `MotionType` is imported by `TotalWarModels.py` but not defined in
the source tree, and `transportSpace`-style bare `Dict`/`dict` annotations
carry no arguments; both are kept as opaque class references. -/
def totalWarUnitDataBaseFields : List PyField :=
  [fld "armor" (pyopt (.pymodel "TotalWarArmorComponent" totalWarArmorComponentFields)) .vNone,
   fld "bv" (pyopt .pyfloat) .vNone,
   fld "config" (pyopt .pystr) .vNone,
   fld "mass" (pyopt .pyfloat) .vNone,
   fld "pv" (pyopt .pyint) .vNone,
   fld "source" (pyopt .pystr) .vNone,
   fld "techbase" (pyopt .pystr) .vNone,
   fld "version" (pyopt .pyfloat) .vNone,
   fld "unitDataSourceUri" (pyopt .pystr) .vNone,
   fld "equipmentList"
     (pyopt (.pylist (.pymodel "TotalWarEquipmentItem" totalWarEquipmentItemFields))) .vNone,
   fld "armorLocations"
     (pyopt (.pylist (.pymodel "TotalWarArmorLocation" totalWarArmorLocationFields))) .vNone,
   fld "copyrightTrademark" (pyopt .pystr) .vNone,
   fld "runMp" (pyopt .pyint) .vNone,
   fld "motionType" (pyopt (.pynamed "MotionType")) .vNone,
   fld "productionYear" (pyopt .pyint) .vNone,
   fld "rulesLevel" (pyopt .pyint) .vNone,
   fld "walkMp" (pyopt .pyint) .vNone,
   fld "trooperCount" (pyopt .pyint) .vNone,
   fld "jumpMp" (pyopt .pyint) .vNone,
   fld "armorFactor" (pyopt .pyint) .vNone,
   fld "armorFactorMax" (pyopt .pyint) .vNone,
   fld "extraOptions" (pyopt (.pydict .pystr .pybool)) .vNone,
   fld "fireControl" (pyopt .pystr) .vNone]

/-- The `JumpJetType` enumeration: none = 0, regular = 1, improved = 2,
umu = 3. -/
def jumpJetTypeAnn : PyType := .pyenum "JumpJetType" [0, 1, 2, 3]

/-- Fields of `TotalWarBattleMechData`. -/
def totalWarBattleMechDataFields : List PyField :=
  totalWarUnitDataBaseFields ++
  [fld "cockpit" (pyopt (.pymodel "TotalWarCockpitComponent" totalWarCockpitComponentFields)) .vNone,
   fld "constructionInvalid" (pyopt (.pylist .pystr)) .vNone,
   fld "constructionValidated" (pyopt .pybool) .vNone,
   fld "engine" (pyopt (.pymodel "TotalWarEngineComponent" totalWarEngineComponentFields))
     engineComponentDefault,
   fld "gyro" (pyopt (.pymodel "TotalWarGyroComponent" totalWarGyroComponentFields)) .vNone,
   fld "heatSinks" (pyopt (.pymodel "TotalWarHeatSinkComponent" totalWarHeatSinkComponentFields)) .vNone,
   fld "myomer" (pyopt (.pymodel "TotalWarMyomerComponent" totalWarMyomerComponentFields)) .vNone,
   fld "structure" (pyopt (.pymodel "TotalWarStructureComponent" totalWarStructureComponentFields)) .vNone,
   fld "weapons" (pyopt .pyint) .vNone,
   fld "criticalLocations"
     (pyopt (.pylist (.pymodel "TotalWarCriticalLocationItem" totalWarCriticalLocationItemFields))) .vNone,
   fld "productionEra" (pyopt .pyint) .vNone,
   fld "jumpjetType" (pyopt jumpJetTypeAnn) .vNone]

/-- Fields of `TotalWarAerospaceData`. -/
def totalWarAerospaceDataFields : List PyField :=
  totalWarUnitDataBaseFields ++
  [fld "cockpit" (pyopt (.pymodel "TotalWarCockpitComponent" totalWarCockpitComponentFields)) .vNone,
   fld "constructionInvalid" (pyopt (.pylist .pystr)) .vNone,
   fld "constructionValidated" (pyopt .pybool) .vNone,
   fld "engine" (pyopt (.pymodel "TotalWarEngineComponent" totalWarEngineComponentFields))
     engineComponentDefault,
   fld "fuel" (pyopt .pyint) .vNone,
   fld "transportSpace" (pyopt (.pynamed "Dict")) .vNone,
   fld "heatSinks" (pyopt (.pymodel "TotalWarHeatSinkComponent" totalWarHeatSinkComponentFields)) .vNone,
   fld "structure" (pyopt (.pymodel "TotalWarStructureComponent" totalWarStructureComponentFields)) .vNone,
   fld "safeThrust" (pyopt .pyint) .vNone,
   fld "weapons" (pyopt .pyint) .vNone,
   fld "productionEra" (pyopt .pyint) .vNone]

/-- Fields of `TotalWarInfantryData`. -/
def totalWarInfantryDataFields : List PyField :=
  totalWarUnitDataBaseFields ++
  [fld "constructionInvalid" (pyopt (.pylist .pystr)) .vNone,
   fld "constructionValidated" (pyopt .pybool) .vNone,
   fld "structure" (pyopt (.pymodel "TotalWarStructureComponent" totalWarStructureComponentFields)) .vNone,
   fld "trooperMass" (pyopt .pyfloat) .vNone,
   fld "productionEra" (pyopt .pyint) .vNone,
   fld "squads" (pyopt .pyint) .vNone,
   fld "squadSize" (pyopt .pyint) .vNone,
   fld "secondaryWeaponTroops" (pyopt .pyint) .vNone,
   fld "isExoskeleton" (pyopt .pybool) (.vBool false)]

/-- Fields of `TotalWarVehicleData`. -/
def totalWarVehicleDataFields : List PyField :=
  totalWarUnitDataBaseFields ++
  [fld "constructionInvalid" (pyopt (.pylist .pystr)) .vNone,
   fld "constructionValidated" (pyopt .pybool) .vNone,
   fld "engine" (pyopt (.pymodel "TotalWarEngineComponent" totalWarEngineComponentFields))
     engineComponentDefault,
   fld "turretType" (pyopt (.pyenum "TurretType" [0, 1, 2])) .vNone,
   fld "transportSpace" (pyopt (.pymodel "TotalWarBayBaseItem" totalWarBayBaseItemFields)) .vNone,
   fld "structure" (pyopt (.pymodel "TotalWarStructureComponent" totalWarStructureComponentFields)) .vNone,
   fld "productionEra" (pyopt .pyint) .vNone,
   fld "hasControlSystems" (pyopt .pybool) .vNone,
   fld "heatSinks" (pyopt (.pymodel "TotalWarHeatSinkComponent" totalWarHeatSinkComponentFields)) .vNone,
   fld "isTrailer" (pyopt .pybool) .vNone,
   fld "extraCombatSeats" (pyopt .pyint) .vNone,
   fld "jumpjetType" (pyopt jumpJetTypeAnn) .vNone]

/-- Fields of `TotalWarDropshipData`. -/
def totalWarDropshipDataFields : List PyField :=
  totalWarUnitDataBaseFields ++
  [fld "bays" (pyopt (.pylist (.pymodel "TotalWarBayExtendedItem" totalWarBayExtendedItemFields))) .vNone,
   fld "quarters" (pyopt (.pylist (.pymodel "TotalWarBayBaseItem" totalWarBayBaseItemFields))) .vNone,
   fld "crewValues" (pyopt (.pylist (.pymodel "TotalWarBayBaseItem" totalWarBayBaseItemFields))) .vNone,
   fld "heatSinks" (pyopt (.pymodel "TotalWarHeatSinkComponent" totalWarHeatSinkComponentFields)) .vNone,
   fld "structuralIntegrity" (pyopt .pyint) .vNone,
   fld "engine" (pyopt (.pymodel "TotalWarEngineComponent" totalWarEngineComponentFields))
     engineComponentDefault,
   fld "chassisType" (pyopt .pyint) .vNone,
   fld "fuel" (pyopt .pyint) .vNone]

/-- The field added by every `TotalWar*ExtendedData` subclass.
`EquipmentItem` is a further pydantic model tree that no claim's evaluation
path reaches; it is kept as an opaque class reference. -/
def equipmentItemsField : PyField :=
  fld "equipmentItems" (pyopt (.pylist (.pynamed "EquipmentItem"))) .vNone

/-- The model `TotalWarBattleMechData`. -/
def TotalWarBattleMechDataM : PyType :=
  .pymodel "TotalWarBattleMechData" totalWarBattleMechDataFields

/-- The model `TotalWarAerospaceData`. -/
def TotalWarAerospaceDataM : PyType :=
  .pymodel "TotalWarAerospaceData" totalWarAerospaceDataFields

/-- The model `TotalWarInfantryData`. -/
def TotalWarInfantryDataM : PyType :=
  .pymodel "TotalWarInfantryData" totalWarInfantryDataFields

/-- The model `TotalWarVehicleData`. -/
def TotalWarVehicleDataM : PyType :=
  .pymodel "TotalWarVehicleData" totalWarVehicleDataFields

/-- The model `TotalWarDropshipData`. -/
def TotalWarDropshipDataM : PyType :=
  .pymodel "TotalWarDropshipData" totalWarDropshipDataFields

/-- The model `TotalWarBattleMechExtendedData`. -/
def TotalWarBattleMechExtendedDataM : PyType :=
  .pymodel "TotalWarBattleMechExtendedData" (totalWarBattleMechDataFields ++ [equipmentItemsField])

/-- The model `TotalWarAerospaceExtendedData`. -/
def TotalWarAerospaceExtendedDataM : PyType :=
  .pymodel "TotalWarAerospaceExtendedData" (totalWarAerospaceDataFields ++ [equipmentItemsField])

/-- The model `TotalWarInfantryExtendedData`. -/
def TotalWarInfantryExtendedDataM : PyType :=
  .pymodel "TotalWarInfantryExtendedData" (totalWarInfantryDataFields ++ [equipmentItemsField])

/-- The model `TotalWarVehicleExtendedData`. -/
def TotalWarVehicleExtendedDataM : PyType :=
  .pymodel "TotalWarVehicleExtendedData" (totalWarVehicleDataFields ++ [equipmentItemsField])

/-- The model `TotalWarDropshipExtendedData`. -/
def TotalWarDropshipExtendedDataM : PyType :=
  .pymodel "TotalWarDropshipExtendedData" (totalWarDropshipDataFields ++ [equipmentItemsField])

/-- The `unitTypesMap` dict literal of `UnitData.validate_totalwar_type`,
in source order. -/
def unitTypesMap : List (UnitType × PyType) :=
  [(.mech, TotalWarBattleMechDataM),
   (.vehicle, TotalWarVehicleDataM),
   (.infantry, TotalWarInfantryDataM),
   (.aerospace, TotalWarAerospaceDataM),
   (.dropship, TotalWarDropshipDataM)]

/-- The `unitTypesMap` dict literal of
`UnitDataExtended.validate_totalwar_type`, in source order. -/
def unitTypesMapExtended : List (UnitType × PyType) :=
  [(.mech, TotalWarBattleMechExtendedDataM),
   (.vehicle, TotalWarVehicleExtendedDataM),
   (.infantry, TotalWarInfantryExtendedDataM),
   (.aerospace, TotalWarAerospaceExtendedDataM),
   (.dropship, TotalWarDropshipExtendedDataM)]

/-- Dict lookup `unitTypesMap[thisUnitType]`, `none` for `KeyError`. -/
def lookupByUnitType : List (UnitType × PyType) → UnitType → Option PyType
  | [], _ => none
  | (k, m) :: rest, t => if k = t then some m else lookupByUnitType rest t

/-- The model constructor call `cls(**v)`: validate the raw mapping against
the class's declared fields. -/
def constructModel (cls : PyType) (kvs : List (String × JValue)) : Except String TValue :=
  coerce cls (.obj kvs)

/-- Result of a `totalWar` field validator: either the input returned
unchanged (non-mapping input) or a constructed typed model. -/
inductive TWResult where
  | raw (v : JValue)
  | typed (t : TValue)

/-- Core of both `validate_totalwar_type` validators, parametrized by the
variant lookup table; `v` is the raw `totalWar` payload and `data` the
already-validated sibling fields (`info.data`).  Mirrors
`NullgModels/BattletechModels.py`: non-mapping payloads are returned
unchanged; otherwise the discriminator must be present and an `int`
(`ValueError("Unit type id field does not exist")`), convert to a `UnitType`
member (`ValueError("Invalid unit type")`), and select the branch class from
the table (`KeyError` also reported as `ValueError("Invalid unit type")`). -/
def validateTotalwarWith (tbl : List (UnitType × PyType)) (v : JValue)
    (data : List (String × JValue)) : Except String TWResult :=
  match v with
  | .obj kvs =>
    match pyDictGet data FIELD_UNIT_TYPE with
    | some w =>
      if pyIsInstInt w then
        match UnitType.ofInt? (pyIntValue w) with
        | some ut =>
          match lookupByUnitType tbl ut with
          | some cls =>
            (match constructModel cls kvs with
             | .error e => .error e
             | .ok m => .ok (.typed m))
          | none => .error "Invalid unit type"
        | none => .error "Invalid unit type"
      else .error "Unit type id field does not exist"
    | none => .error "Unit type id field does not exist"
  | v => .ok (.raw v)

/-- `UnitData.validate_totalwar_type` (BattletechModels.py, lines 259-296). -/
def validate_totalwar_type (v : JValue) (data : List (String × JValue)) :
    Except String TWResult :=
  validateTotalwarWith unitTypesMap v data

/-- `UnitDataExtended.validate_totalwar_type` (BattletechModels.py,
lines 325-356). -/
def validate_totalwar_type_extended (v : JValue) (data : List (String × JValue)) :
    Except String TWResult :=
  validateTotalwarWith unitTypesMapExtended v data

/-- The typed record produced by validating the raw payload
`{"mass": 50}` against `TotalWarBattleMechData`: every declared field takes
its default except `mass`, which is coerced from the int 50 to the float
50.0. -/
def battleMechParsedMass50 : List (String × TValue) :=
  [("armor", .vNone), ("bv", .vNone), ("config", .vNone), ("mass", .vFloat 50),
   ("pv", .vNone), ("source", .vNone), ("techbase", .vNone), ("version", .vNone),
   ("unitDataSourceUri", .vNone), ("equipmentList", .vNone), ("armorLocations", .vNone),
   ("copyrightTrademark", .vNone), ("runMp", .vNone), ("motionType", .vNone),
   ("productionYear", .vNone), ("rulesLevel", .vNone), ("walkMp", .vNone),
   ("trooperCount", .vNone), ("jumpMp", .vNone), ("armorFactor", .vNone),
   ("armorFactorMax", .vNone), ("extraOptions", .vNone), ("fireControl", .vNone),
   ("cockpit", .vNone), ("constructionInvalid", .vNone), ("constructionValidated", .vNone),
   ("engine", engineComponentDefault), ("gyro", .vNone), ("heatSinks", .vNone),
   ("myomer", .vNone), ("structure", .vNone), ("weapons", .vNone),
   ("criticalLocations", .vNone), ("productionEra", .vNone), ("jumpjetType", .vNone)]

-- ===================================================================
-- Field catalog introspection: Utils/introspection.py
-- ===================================================================

/-- The `FieldMetadata` record of `NullgModels/FieldMetadata.py` as populated
by the catalog builder.  The `example` attribute is spelled `exampleVal`
here. -/
structure FieldMetadata where
  name : String
  type : String
  description : Option String
  operators : Option (List String)
  exampleVal : Option String
  category : Option String
  deriving DecidableEq

/-- The `DEFAULT_OPERATORS` table of `Utils/introspection.py`. -/
def DEFAULT_OPERATORS : List (String × List String) :=
  [("integer", ["$eq", "$gte", "$lte"]),
   ("float", ["$eq", "$gte", "$lte"]),
   ("string", ["$eq", "$regex"]),
   ("array[string]", ["$in", "$regex"]),
   ("array[integer]", ["$in"]),
   ("boolean", ["$eq"]),
   ("dict[string, any]", ["$eq", "$regex", "$gt", "$gte", "$lt", "$lte"])]

/-- Python `DEFAULT_OPERATORS.get(field_type)`. -/
def DEFAULT_OPERATORS_get : String → Option (List String) :=
  go DEFAULT_OPERATORS
where
  go : List (String × List String) → String → Option (List String)
    | [], _ => none
    | (k, v) :: rest, key => if k = key then some v else go rest key

/-- Python `typing.get_args` on the annotations used in this repository:
union members, the element type of `List[...]`, the two parameters of
`Dict[...]`, and empty otherwise. -/
def pyGetArgs : PyType → List PyType
  | .pyunion ts => ts
  | .pylist t => [t]
  | .pydict k v => [k, v]
  | _ => []

/-- Whether an annotation is the class `str`. -/
def isStrTy : PyType → Bool
  | .pystr => true
  | _ => false

/-- Whether an annotation is the class `int`. -/
def isIntTy : PyType → Bool
  | .pyint => true
  | _ => false

/-- Whether an annotation is the class `float`. -/
def isFloatTy : PyType → Bool
  | .pyfloat => true
  | _ => false

/-- Whether an annotation is the class `bool`. -/
def isBoolTy : PyType → Bool
  | .pybool => true
  | _ => false

/-- Whether an annotation is `typing.Any`. -/
def isAnyTy : PyType → Bool
  | .pyany => true
  | _ => false

/-- The `__name__` / `str(py_type)` fallback of `get_type_name` for types
that reach its last branches.  The `pyunion` and `pyliteral` renderings
stand for CPython's `str()` of the bare alias; no claim exercises them. -/
def pyTypeName : PyType → String
  | .pystr => "str"
  | .pyint => "int"
  | .pyfloat => "float"
  | .pybool => "bool"
  | .pyany => "Any"
  | .pynone => "NoneType"
  | .pylist _ => "list"
  | .pydict _ _ => "dict"
  | .pyunion _ => "typing.Union"
  | .pymodel mname _ => mname
  | .pyenum ename _ => ename
  | .pystrenum ename _ => ename
  | .pyliteral _ => "Literal"
  | .pynamed cname => cname

/-- The non-recursive tail of `get_type_name`: the `str`/`int`/`float`/
`bool` membership tests (`py_type == str or str in get_args(py_type)`),
the `Any` test, and the name fallback, in source order. -/
def scalarName (t : PyType) : String :=
  if isStrTy t || (pyGetArgs t).any isStrTy then "string"
  else if isIntTy t || (pyGetArgs t).any isIntTy then "integer"
  else if isFloatTy t || (pyGetArgs t).any isFloatTy then "float"
  else if isBoolTy t || (pyGetArgs t).any isBoolTy then "boolean"
  else if isAnyTy t then "any"
  else pyTypeName t

/-- Embedding of `get_type_name` (introspection.py).  The source first
replaces `py_type` by its first type argument when `get_args` is nonempty,
then dispatches on `get_origin`: `list` yields `array[...]` over the
element type, `dict` yields `dict[..., ...]` over the two parameters, and
anything else falls to `scalarName`.  The unwrap step is inlined into the
patterns here so the recursion stays structural: each outer pattern pairs a
`get_args` shape with the origin of its first argument. -/
def get_type_name : PyType → String
  | .pyunion (.pylist a :: _) => "array[" ++ get_type_name a ++ "]"
  | .pyunion (.pydict k v :: _) => "dict[" ++ get_type_name k ++ ", " ++ get_type_name v ++ "]"
  | .pyunion (a :: _) => scalarName a
  | .pylist (.pylist a) => "array[" ++ get_type_name a ++ "]"
  | .pylist (.pydict k v) => "dict[" ++ get_type_name k ++ ", " ++ get_type_name v ++ "]"
  | .pylist a => scalarName a
  | .pydict (.pylist a) _ => "array[" ++ get_type_name a ++ "]"
  | .pydict (.pydict k v) _ => "dict[" ++ get_type_name k ++ ", " ++ get_type_name v ++ "]"
  | .pydict k _ => scalarName k
  | t => scalarName t

/-- Python `f"{prefix}.{name}" if prefix else name`. -/
def joinPath (pre fname : String) : String :=
  if pre = "" then fname else pre ++ "." ++ fname

/-- Python `s.split(".")[0]`: the characters before the first dot. -/
def firstSeg (s : String) : String :=
  String.mk (s.data.takeWhile (fun c => c != '.'))

/-- Python `a or b` for an optional string `a`: `None` and the empty string
are falsy. -/
def pyOrStr (a : Option String) (b : String) : String :=
  match a with
  | none => b
  | some s => if s = "" then b else s

/-- The field name of a declared pydantic field. -/
def PyField.fname : PyField → String
  | .mk n _ _ _ _ => n

/-- Python `get_args(annotation) or (annotation,)`: the argument tuple the
`for arg in field_args` loop of `walk_model_fields` iterates over. -/
def pyFieldArgs : PyType → List PyType
  | .pyunion ts => ts
  | .pylist t => [t]
  | .pydict k v => [k, v]
  | a => [a]

/-- Whether the walk recurses into an argument instead of appending an
entry: nested models and lists of nested models. -/
def isModelLike : PyType → Bool
  | .pymodel _ _ => true
  | .pylist (.pymodel _ _) => true
  | _ => false

/-- The `included_fields` set loop of `walk_model_fields`: keep the first
entry for each field name, drop later ones. -/
def dedupByName (seen : List String) : List FieldMetadata → List FieldMetadata
  | [] => []
  | e :: rest =>
    if seen.contains e.name then dedupByName seen rest
    else e :: dedupByName (e.name :: seen) rest

/-- The dedup pass applied to a raw field list (empty seen-set). -/
def walkDedup (l : List FieldMetadata) : List FieldMetadata :=
  dedupByName [] l

mutual
/-- The `for name, field in model.model_fields.items()` loop of
`walk_model_fields`, producing the raw (pre-dedup) entry list.  Per source:
the path joins the prefix and field name; the type name, description
fallback, first example, operator lookup and category tag are computed per
field (`current_category = (category or prefix.split(".")[0]) if prefix
else name`, by Python operator precedence); then each element of
`get_args(annotation) or (annotation,)` is visited — the match on the
annotation below is that argument tuple, inlined so the recursion stays
structural. -/
def walkRawFields : List PyField → String → Option String → List FieldMetadata
  | [], _, _ => []
  | .mk fname ann _ descr exs :: rest, pre, cat =>
    (match ann with
     | .pyunion ts =>
       walkArgsList ts (joinPath pre fname) (get_type_name ann)
         (pyOrStr descr "No description") (DEFAULT_OPERATORS_get (get_type_name ann))
         exs.head? (if pre = "" then fname else pyOrStr cat (firstSeg pre))
     | .pylist t =>
       walkArg t (joinPath pre fname) (get_type_name ann)
         (pyOrStr descr "No description") (DEFAULT_OPERATORS_get (get_type_name ann))
         exs.head? (if pre = "" then fname else pyOrStr cat (firstSeg pre))
     | .pydict k v =>
       walkArg k (joinPath pre fname) (get_type_name ann)
         (pyOrStr descr "No description") (DEFAULT_OPERATORS_get (get_type_name ann))
         exs.head? (if pre = "" then fname else pyOrStr cat (firstSeg pre)) ++
       walkArg v (joinPath pre fname) (get_type_name ann)
         (pyOrStr descr "No description") (DEFAULT_OPERATORS_get (get_type_name ann))
         exs.head? (if pre = "" then fname else pyOrStr cat (firstSeg pre))
     | a =>
       walkArg a (joinPath pre fname) (get_type_name ann)
         (pyOrStr descr "No description") (DEFAULT_OPERATORS_get (get_type_name ann))
         exs.head? (if pre = "" then fname else pyOrStr cat (firstSeg pre))) ++
    walkRawFields rest pre cat
termination_by structural fields => fields

/-- The loop body over the members of a union argument tuple. -/
def walkArgsList (ts : List PyType) (field_name field_type desc : String)
    (operators : Option (List String)) (exampleVal : Option String)
    (cur : String) : List FieldMetadata :=
  match ts with
  | [] => []
  | a :: rest =>
    walkArg a field_name field_type desc operators exampleVal cur ++
    walkArgsList rest field_name field_type desc operators exampleVal cur
termination_by structural ts

/-- One iteration of the `for arg in field_args` loop: `NoneType` is
skipped; an argument with `model_fields` is recursed into (the nested
`walk_model_fields` call, i.e. a deduped raw walk); a `list` argument whose
element has `model_fields` likewise; anything else appends one catalog
entry. -/
def walkArg (arg : PyType) (field_name field_type desc : String)
    (operators : Option (List String)) (exampleVal : Option String)
    (cur : String) : List FieldMetadata :=
  match arg with
  | .pynone => []
  | .pymodel _ mfs => walkDedup (walkRawFields mfs field_name (some cur))
  | .pylist t =>
    (match t with
     | .pymodel _ mfs => walkDedup (walkRawFields mfs field_name (some cur))
     | _ => [⟨field_name, field_type, some desc, operators, exampleVal, some cur⟩])
  | _ => [⟨field_name, field_type, some desc, operators, exampleVal, some cur⟩]
termination_by structural arg
end

/-- Embedding of `walk_model_fields` (introspection.py): the raw recursive
collection followed by the first-occurrence-wins dedup by field path. -/
def walk_model_fields (fields : List PyField) (pre : String) (cat : Option String) :
    List FieldMetadata :=
  walkDedup (walkRawFields fields pre cat)

/-- The entries contributed by a single iteration of the outer
`for name, field in model.model_fields.items()` loop of
`walk_model_fields`: the per-field slice of `walkRawFields`, factored out
so the raw walk can be decomposed field by field. -/
def fieldEntries : PyField → String → Option String → List FieldMetadata
  | .mk fname ann _ descr exs, pre, cat =>
    match ann with
    | .pyunion ts =>
      walkArgsList ts (joinPath pre fname) (get_type_name ann)
        (pyOrStr descr "No description") (DEFAULT_OPERATORS_get (get_type_name ann))
        exs.head? (if pre = "" then fname else pyOrStr cat (firstSeg pre))
    | .pylist t =>
      walkArg t (joinPath pre fname) (get_type_name ann)
        (pyOrStr descr "No description") (DEFAULT_OPERATORS_get (get_type_name ann))
        exs.head? (if pre = "" then fname else pyOrStr cat (firstSeg pre))
    | .pydict k v =>
      walkArg k (joinPath pre fname) (get_type_name ann)
        (pyOrStr descr "No description") (DEFAULT_OPERATORS_get (get_type_name ann))
        exs.head? (if pre = "" then fname else pyOrStr cat (firstSeg pre)) ++
      walkArg v (joinPath pre fname) (get_type_name ann)
        (pyOrStr descr "No description") (DEFAULT_OPERATORS_get (get_type_name ann))
        exs.head? (if pre = "" then fname else pyOrStr cat (firstSeg pre))
    | a =>
      walkArg a (joinPath pre fname) (get_type_name ann)
        (pyOrStr descr "No description") (DEFAULT_OPERATORS_get (get_type_name ann))
        exs.head? (if pre = "" then fname else pyOrStr cat (firstSeg pre))

/-- Schema with a nested-model field for the catalog counterexamples: a
single field `armor` whose annotation is an optional nested model `Comp`
with one int field `inner`. -/
def subSchemaC : List PyField :=
  [.mk "inner" .pyint .vNone none []]

/-- The root schema of the nested-model counterexample. -/
def nestedFieldSchema : List PyField :=
  [.mk "armor" (pyopt (.pymodel "Comp" subSchemaC)) .vNone none []]

/-- Root schema with a nested model, used for the category counterexample:
field `alpha` holding nested model `Sub` with field `beta`. -/
def c8Schema : List PyField :=
  [.mk "alpha" (pyopt (.pymodel "Sub" [.mk "beta" .pyint .vNone none []])) .vNone none []]

-- ===================================================================
-- Theorems
-- ===================================================================

mutual
/-- validate_filter returns the first reachable key failing the allow-list. -/
theorem validate_filter_eq_find :
    ∀ v : JValue, validate_filter v = (reachableKeys v).find? badFilterKey := by
  intro v
  match v with
  | .obj kvs => simpa [validate_filter, reachableKeys] using validateFilterPairs_eq_find kvs
  | .arr xs => simpa [validate_filter, reachableKeys] using validateFilterItems_eq_find xs
  | .null => simp [validate_filter, reachableKeys]
  | .bool b => simp [validate_filter, reachableKeys]
  | .int n => simp [validate_filter, reachableKeys]
  | .float q => simp [validate_filter, reachableKeys]
  | .str s => simp [validate_filter, reachableKeys]
termination_by structural v => v

/-- Pairs version of `validate_filter_eq_find`. -/
theorem validateFilterPairs_eq_find :
    ∀ kvs : List (String × JValue),
      validateFilterPairs kvs = (reachableKeysPairs kvs).find? badFilterKey := by
  intro kvs
  match kvs with
  | [] => simp [validateFilterPairs, reachableKeysPairs]
  | (key, value) :: rest =>
    have h1 := validate_filter_eq_find value
    have h2 := validateFilterPairs_eq_find rest
    by_cases hb : badFilterKey key
    · simp [validateFilterPairs, reachableKeysPairs, hb, List.find?]
    · rw [validateFilterPairs, reachableKeysPairs]
      simp only [List.find?_cons, hb, Bool.false_eq_true, if_neg, List.find?_append]
      rw [h1] at *
      cases hf : (reachableKeys value).find? badFilterKey with
      | some e => simp [hf, hb]
      | none => simp [hf, hb, h2]
termination_by structural kvs => kvs

/-- Items version of `validate_filter_eq_find`. -/
theorem validateFilterItems_eq_find :
    ∀ xs : List JValue,
      validateFilterItems xs = (reachableKeysItems xs).find? badFilterKey := by
  intro xs
  match xs with
  | [] => simp [validateFilterItems, reachableKeysItems]
  | x :: rest =>
    have h1 := validate_filter_eq_find x
    have h2 := validateFilterItems_eq_find rest
    rw [validateFilterItems, reachableKeysItems]
    simp only [List.find?_append]
    rw [h1] at *
    cases hf : (reachableKeys x).find? badFilterKey with
    | some e => simp [hf]
    | none => simp [hf, h2]
termination_by structural xs => xs
end

mutual
/-- validate_pipeline returns the first reachable key hitting the deny-list. -/
theorem validate_pipeline_eq_find :
    ∀ v : JValue, validate_pipeline v = (reachableKeys v).find? badPipelineKey := by
  intro v
  match v with
  | .obj kvs => simpa [validate_pipeline, reachableKeys] using validatePipelinePairs_eq_find kvs
  | .arr xs => simpa [validate_pipeline, reachableKeys] using validatePipelineItems_eq_find xs
  | .null => simp [validate_pipeline, reachableKeys]
  | .bool b => simp [validate_pipeline, reachableKeys]
  | .int n => simp [validate_pipeline, reachableKeys]
  | .float q => simp [validate_pipeline, reachableKeys]
  | .str s => simp [validate_pipeline, reachableKeys]
termination_by structural v => v

/-- Pairs version of `validate_pipeline_eq_find`. -/
theorem validatePipelinePairs_eq_find :
    ∀ kvs : List (String × JValue),
      validatePipelinePairs kvs = (reachableKeysPairs kvs).find? badPipelineKey := by
  intro kvs
  match kvs with
  | [] => simp [validatePipelinePairs, reachableKeysPairs]
  | (key, value) :: rest =>
    have h1 := validate_pipeline_eq_find value
    have h2 := validatePipelinePairs_eq_find rest
    by_cases hb : badPipelineKey key
    · simp [validatePipelinePairs, reachableKeysPairs, hb, List.find?]
    · rw [validatePipelinePairs, reachableKeysPairs]
      simp only [List.find?_cons, hb, Bool.false_eq_true, if_neg, List.find?_append]
      rw [h1] at *
      cases hf : (reachableKeys value).find? badPipelineKey with
      | some e => simp [hf, hb]
      | none => simp [hf, hb, h2]
termination_by structural kvs => kvs

/-- Items version of `validate_pipeline_eq_find`. -/
theorem validatePipelineItems_eq_find :
    ∀ xs : List JValue,
      validatePipelineItems xs = (reachableKeysItems xs).find? badPipelineKey := by
  intro xs
  match xs with
  | [] => simp [validatePipelineItems, reachableKeysItems]
  | x :: rest =>
    have h1 := validate_pipeline_eq_find x
    have h2 := validatePipelineItems_eq_find rest
    rw [validatePipelineItems, reachableKeysItems]
    simp only [List.find?_append]
    rw [h1] at *
    cases hf : (reachableKeys x).find? badPipelineKey with
    | some e => simp [hf]
    | none => simp [hf, h2]
termination_by structural xs => xs
end

/-- Membership in the deny-list names exactly the two deny-listed keys, and
both begin with the sentinel, so the sentinel test is redundant there. -/
theorem badPipelineKey_iff (k : String) :
    badPipelineKey k = true ↔ k = "$merge" ∨ k = "$out" := by
  constructor
  · intro h
    simp [badPipelineKey, DISALLOWED_OPERATORS, List.elem_iff] at h
    rcases h.2 with h2 | h2 <;> [left; right] <;> exact h2
  · rintro (rfl | rfl) <;> decide

/-- C1: for every query expression, `validate_filter` accepts if and only if no
mapping key reachable from the root at any nesting depth both begins with the
dollar sentinel and lies outside the fixed allow-list; when it rejects, the
reported key is such an offending reachable mapping key; and scalar values
contribute no operator candidates and are always accepted. -/
theorem C1_validate_filter_allowlist :
    (∀ q : JValue, validate_filter q = none ↔
      ∀ k ∈ reachableKeys q,
        ¬(startsWithDollar k = true ∧ k ∉ ALLOWED_OPERATORS)) ∧
    (∀ q : JValue, ∀ e : String, validate_filter q = some e →
      e ∈ reachableKeys q ∧ startsWithDollar e = true ∧ e ∉ ALLOWED_OPERATORS) ∧
    (∀ q : JValue, q.isScalar = true →
      validate_filter q = none ∧ reachableKeys q = []) := by
  have hbad : ∀ k : String,
      badFilterKey k = true ↔ startsWithDollar k = true ∧ k ∉ ALLOWED_OPERATORS := by
    intro k
    simp [badFilterKey, List.elem_iff]
  refine ⟨?_, ?_, ?_⟩
  · intro q
    rw [validate_filter_eq_find, List.find?_eq_none]
    constructor
    · intro h k hk hks
      exact h k hk ((hbad k).mpr hks)
    · intro h k hk hb
      exact h k hk ((hbad k).mp hb)
  · intro q e h
    rw [validate_filter_eq_find] at h
    have hmem := List.mem_of_find?_eq_some h
    have hprop := List.find?_some h
    exact ⟨hmem, (hbad e).mp hprop⟩
  · intro q hq
    match q, hq with
    | .null, _ => exact ⟨rfl, rfl⟩
    | .bool b, _ => exact ⟨rfl, rfl⟩
    | .int n, _ => exact ⟨rfl, rfl⟩
    | .float r, _ => exact ⟨rfl, rfl⟩
    | .str s, _ => exact ⟨rfl, rfl⟩

/-- Witness for C1: a conjunctive filter with only allow-listed operators is
accepted; the filter hiding `$merge` under `$and` is rejected naming
`$merge`, an offending reachable key; and a bare scalar is accepted. -/
theorem C1_witness :
    (validate_filter (.obj [("mass", .obj [("$gte", .int 50)])]) = none) ∧
    ("$merge" ∈ reachableKeys nestedBadFilter ∧
      startsWithDollar "$merge" = true ∧ "$merge" ∉ ALLOWED_OPERATORS) ∧
    (validate_filter (.str "Atlas") = none ∧ reachableKeys (.str "Atlas") = []) := by
  refine ⟨?_, ?_, ?_⟩
  · exact (C1_validate_filter_allowlist.1 _).mpr (by decide)
  · exact C1_validate_filter_allowlist.2.1 nestedBadFilter "$merge" (by decide)
  · exact C1_validate_filter_allowlist.2.2 (.str "Atlas") (by decide)

/-- C2: for every pipeline expression, `validate_pipeline` accepts if and only
if no mapping key reachable at any nesting depth is one of the two deny-listed
stage operators, so operator-shaped keys outside the deny-list are accepted; a
rejection reports a reachable deny-listed stage key; and the spec scenario
pipeline is rejected naming `$out`. -/
theorem C2_validate_pipeline_denylist :
    (∀ p : JValue, validate_pipeline p = none ↔
      ∀ k ∈ reachableKeys p, ¬(k = "$merge" ∨ k = "$out")) ∧
    (∀ p : JValue, ∀ e : String, validate_pipeline p = some e →
      e ∈ reachableKeys p ∧ (e = "$merge" ∨ e = "$out")) ∧
    validate_pipeline (.obj [("$someBrandNewStage", .int 1)]) = none ∧
    validate_pipeline scenarioPipeline = some "$out" := by
  refine ⟨?_, ?_, by decide, by decide⟩
  · intro p
    rw [validate_pipeline_eq_find, List.find?_eq_none]
    constructor
    · intro h k hk hks
      exact h k hk ((badPipelineKey_iff k).mpr hks)
    · intro h k hk hb
      exact h k hk ((badPipelineKey_iff k).mp hb)
  · intro p e h
    rw [validate_pipeline_eq_find] at h
    exact ⟨List.mem_of_find?_eq_some h, (badPipelineKey_iff e).mp (List.find?_some h)⟩

/-- Witness for C2: a pipeline avoiding the deny-list everywhere is accepted,
and the scenario pipeline's rejection with `$out` instantiates the rejection
conjunct on a reachable deny-listed key. -/
theorem C2_witness :
    (validate_pipeline (.arr [.obj [("$unwind", .str "$factions")]]) = none) ∧
    ("$out" ∈ reachableKeys scenarioPipeline ∧ ("$out" = "$merge" ∨ "$out" = "$out")) := by
  refine ⟨?_, ?_⟩
  · exact (C2_validate_pipeline_denylist.1 _).mpr (by decide)
  · exact C2_validate_pipeline_denylist.2.1 scenarioPipeline "$out" (by decide)

/-- C3 counterexample: with the totalWar payload a mapping and the resolved
sibling `unitType = 99` (an integer that is no `UnitType` member),
`UnitData.validate_totalwar_type` raises the constant
`ValueError("Invalid unit type")`; the same error is raised for `unitType =
98`, so the error does not carry the offending discriminator value, contrary
to the claimed `UnknownVariant(99)`-style error. -/
theorem C3_counterexample :
    validate_totalwar_type (.obj [("mass", .int 50)]) [("unitType", .int 99)]
      = .error "Invalid unit type" ∧
    validate_totalwar_type (.obj [("mass", .int 50)]) [("unitType", .int 98)]
      = .error "Invalid unit type" := by
  constructor <;> rfl

/-- C3 amended: when the totalWar payload is a mapping and the resolved
sibling `unitType` is an integer not recognized by the `UnitType`
enumeration, resolution fails with the constant invalid-unit-type error
(which does not carry the value). -/
theorem C3_unknown_variant_error (kvs data : List (String × JValue)) (n : Int)
    (hd : pyDictGet data FIELD_UNIT_TYPE = some (.int n))
    (hn : UnitType.ofInt? n = none) :
    validate_totalwar_type (.obj kvs) data = .error "Invalid unit type" := by
  simp [validate_totalwar_type, validateTotalwarWith, hd, pyIsInstInt, pyIntValue, hn]

/-- Witness for the amended C3: the scenario record with `unitType = 99`. -/
theorem C3_witness :
    validate_totalwar_type (.obj [("mass", .int 50)]) [("unitType", .int 99)]
      = .error "Invalid unit type" :=
  C3_unknown_variant_error [("mass", .int 50)] [("unitType", .int 99)] 99 rfl rfl

/-- Dispatch shape of the totalWar validators: once the discriminator is
present, an int, and a recognized `UnitType` member with a branch class in
the table, the result is exactly that branch constructor applied to the
payload. -/
theorem validateTotalwarWith_dispatch (tbl : List (UnitType × PyType))
    (kvs data : List (String × JValue)) (w : JValue) (ut : UnitType)
    (hw : pyDictGet data FIELD_UNIT_TYPE = some w) (hi : pyIsInstInt w = true)
    (hu : UnitType.ofInt? (pyIntValue w) = some ut) (cls : PyType)
    (hc : lookupByUnitType tbl ut = some cls) :
    validateTotalwarWith tbl (.obj kvs) data
      = (constructModel cls kvs).map TWResult.typed := by
  simp only [validateTotalwarWith, hw, hi, hu, hc, if_pos]
  cases constructModel cls kvs <;> simp [Except.map]

theorem parseFields_cons (fname : String) (ann : PyType) (dflt : TValue)
    (d : Option String) (ex : List String) (rest : List PyField)
    (kvs : List (String × JValue)) (r : TValue) (rs : List (String × TValue))
    (h1 : parseField1 ann dflt (pyDictGet kvs fname) = .ok r)
    (h2 : parseFields rest kvs = .ok rs) :
    parseFields (.mk fname ann dflt d ex :: rest) kvs = .ok ((fname, r) :: rs) := by
  simp only [parseFields]
  rw [h1, h2]

set_option maxRecDepth 4000 in
/-- C4: discriminator code 2 converts to the mech member, the variant table
maps it to `TotalWarBattleMechData`, and resolving the raw payload
`mass = 50` against sibling `unitType = 2` succeeds with a typed
BattleMech record whose `mass` field is the float 50.0 (every other field
takes its declared default). -/
theorem C4_mech_dispatch :
    UnitType.ofInt? 2 = some UnitType.mech ∧
    lookupByUnitType unitTypesMap UnitType.mech = some TotalWarBattleMechDataM ∧
    validate_totalwar_type (.obj [("mass", .int 50)]) [("unitType", .int 2)]
      = .ok (.typed (.vModel "TotalWarBattleMechData" battleMechParsedMass50)) ∧
    lookupTV battleMechParsedMass50 "mass" = some (.vFloat 50) := by
  refine ⟨rfl, rfl, ?_, rfl⟩
  have hpf : parseFields totalWarBattleMechDataFields [("mass", JValue.int 50)]
      = .ok battleMechParsedMass50 := by
    simp only [totalWarBattleMechDataFields, totalWarUnitDataBaseFields, fld,
      pyopt, jumpJetTypeAnn, List.cons_append, List.nil_append,
      battleMechParsedMass50, engineComponentDefault]
    iterate 35
      refine parseFields_cons _ _ _ _ _ _ _ _ _
        (by simp [parseField1, pyDictGet, coerce, coerceUnion, pyopt]) ?_
    simp only [parseFields]
  have hcm : constructModel TotalWarBattleMechDataM [("mass", JValue.int 50)]
      = .ok (.vModel "TotalWarBattleMechData" battleMechParsedMass50) := by
    simp only [constructModel, TotalWarBattleMechDataM, coerce]
    rw [hpf]
  rw [show validate_totalwar_type (.obj [("mass", .int 50)]) [("unitType", .int 2)]
      = validateTotalwarWith unitTypesMap (.obj [("mass", .int 50)]) [("unitType", .int 2)]
      from rfl,
    validateTotalwarWith_dispatch unitTypesMap [("mass", .int 50)]
      [("unitType", .int 2)] (.int 2) .mech rfl rfl rfl
      TotalWarBattleMechDataM rfl,
    hcm]
  rfl

/-- C5: when the totalWar payload is a mapping but the discriminator field
`unitType` is absent from the resolved sibling fields, or present with a
non-integer value (in Python's sense of `isinstance(x, int)`), resolution
fails with the missing-discriminator error
`ValueError("Unit type id field does not exist")` and no typed record is
produced. -/
theorem C5_missing_discriminator (kvs data : List (String × JValue))
    (h : pyDictGet data FIELD_UNIT_TYPE = none ∨
      ∃ w, pyDictGet data FIELD_UNIT_TYPE = some w ∧ pyIsInstInt w = false) :
    validate_totalwar_type (.obj kvs) data
      = .error "Unit type id field does not exist" := by
  rcases h with h | ⟨w, hw, hi⟩
  · simp [validate_totalwar_type, validateTotalwarWith, h]
  · simp [validate_totalwar_type, validateTotalwarWith, hw, hi]

/-- Witness for C5: absent discriminator, and a string discriminator. -/
theorem C5_witness :
    validate_totalwar_type (.obj [("mass", .int 50)]) []
      = .error "Unit type id field does not exist" ∧
    validate_totalwar_type (.obj [("mass", .int 50)]) [("unitType", .str "mech")]
      = .error "Unit type id field does not exist" := by
  constructor
  · exact C5_missing_discriminator _ _ (Or.inl rfl)
  · exact C5_missing_discriminator _ _ (Or.inr ⟨.str "mech", rfl, rfl⟩)

/-- C9: both variant lookup tables are total over the `UnitType`
enumeration (whose member codes are aerospace = 0, dropship = 1, mech = 2,
infantry = 3, vehicle = 4), so whenever the discriminator converts to a
`UnitType` member, the table lookup succeeds and the result is the selected
branch constructor applied to the payload; the fallback that reports an
invalid unit type after a successful conversion is never taken. -/
theorem C9_variant_table_total :
    (∀ ut : UnitType, (lookupByUnitType unitTypesMap ut).isSome = true ∧
      (lookupByUnitType unitTypesMapExtended ut).isSome = true) ∧
    (UnitType.ofInt? 0 = some .aerospace ∧ UnitType.ofInt? 1 = some .dropship ∧
     UnitType.ofInt? 2 = some .mech ∧ UnitType.ofInt? 3 = some .infantry ∧
     UnitType.ofInt? 4 = some .vehicle) ∧
    (∀ (kvs data : List (String × JValue)) (w : JValue) (ut : UnitType),
      pyDictGet data FIELD_UNIT_TYPE = some w → pyIsInstInt w = true →
      UnitType.ofInt? (pyIntValue w) = some ut →
      (∃ cls, lookupByUnitType unitTypesMap ut = some cls ∧
        validate_totalwar_type (.obj kvs) data
          = (constructModel cls kvs).map TWResult.typed) ∧
      (∃ cls, lookupByUnitType unitTypesMapExtended ut = some cls ∧
        validate_totalwar_type_extended (.obj kvs) data
          = (constructModel cls kvs).map TWResult.typed)) := by
  refine ⟨?_, ⟨rfl, rfl, rfl, rfl, rfl⟩, ?_⟩
  · intro ut
    cases ut <;> exact ⟨rfl, rfl⟩
  · intro kvs data w ut hw hi hu
    cases ut <;>
      exact ⟨⟨_, rfl, validateTotalwarWith_dispatch _ kvs data w _ hw hi hu _ rfl⟩,
        ⟨_, rfl, validateTotalwarWith_dispatch _ kvs data w _ hw hi hu _ rfl⟩⟩

/-- Witness for C9: the totality conjunct at the mech member, and the
dispatch conjunct at discriminator 3 (infantry) over an empty payload. -/
theorem C9_witness :
    ((lookupByUnitType unitTypesMap UnitType.mech).isSome = true ∧
      (lookupByUnitType unitTypesMapExtended UnitType.mech).isSome = true) ∧
    (∃ cls, lookupByUnitType unitTypesMap UnitType.infantry = some cls ∧
      validate_totalwar_type (.obj []) [("unitType", .int 3)]
        = (constructModel cls []).map TWResult.typed) := by
  constructor
  · exact C9_variant_table_total.1 UnitType.mech
  · exact (C9_variant_table_total.2.2 [] [("unitType", .int 3)] (.int 3)
      UnitType.infantry rfl rfl rfl).1

/-- C10: a totalWar payload that is None or any non-mapping value is
returned unchanged by the variant validator for every state of the sibling
fields (so the discriminator is never consulted), and any error the
validator raises implies the payload was a mapping. -/
theorem C10_non_mapping_passthrough :
    (∀ (v : JValue) (data : List (String × JValue)), v.isObj = false →
      validate_totalwar_type v data = .ok (.raw v)) ∧
    (∀ (v : JValue) (data : List (String × JValue)) (e : String),
      validate_totalwar_type v data = .error e → v.isObj = true) := by
  constructor
  · intro v data h
    cases v <;> simp_all [JValue.isObj, validate_totalwar_type, validateTotalwarWith]
  · intro v data e h
    cases v <;> simp_all [JValue.isObj, validate_totalwar_type, validateTotalwarWith]

/-- Witness for C10: the None payload passes through unchanged, and the
scenario error at `unitType = 99` arises from a mapping payload. -/
theorem C10_witness :
    validate_totalwar_type .null [("unitType", .int 2)] = .ok (.raw .null) ∧
    (JValue.obj [("mass", .int 50)]).isObj = true := by
  constructor
  · exact C10_non_mapping_passthrough.1 .null [("unitType", .int 2)] rfl
  · exact C10_non_mapping_passthrough.2 (.obj [("mass", .int 50)])
      [("unitType", .int 99)] "Invalid unit type" (by rfl)

/-- Entries surviving the dedup pass were already in the raw list. -/
theorem dedupByName_subset :
    ∀ (l : List FieldMetadata) (seen : List String) (e : FieldMetadata),
      e ∈ dedupByName seen l → e ∈ l := by
  intro l
  induction l with
  | nil => intro seen e h; simp [dedupByName] at h
  | cons x rest ih =>
    intro seen e h
    rw [dedupByName] at h
    by_cases hx : seen.contains x.name
    · simp only [hx, if_pos] at h
      exact List.mem_cons_of_mem x (ih seen e h)
    · simp only [hx, if_neg, Bool.false_eq_true, not_false_iff] at h
      rcases List.mem_cons.mp h with h | h
      · exact h ▸ List.mem_cons_self x rest
      · exact List.mem_cons_of_mem x (ih _ e h)

/-- Entries surviving the dedup pass have names outside the seen-set. -/
theorem dedupByName_not_seen :
    ∀ (l : List FieldMetadata) (seen : List String) (e : FieldMetadata),
      e ∈ dedupByName seen l → e.name ∉ seen := by
  intro l
  induction l with
  | nil => intro seen e h; simp [dedupByName] at h
  | cons x rest ih =>
    intro seen e h
    rw [dedupByName] at h
    by_cases hx : seen.contains x.name
    · simp only [hx, if_pos] at h
      exact ih seen e h
    · simp only [hx, if_neg, Bool.false_eq_true, not_false_iff] at h
      rcases List.mem_cons.mp h with h | h
      · subst h
        simpa [List.elem_iff] using hx
      · intro hs
        exact ih _ e h (List.mem_cons_of_mem _ hs)

/-- The dedup pass leaves no two entries with the same name. -/
theorem dedupByName_nodup :
    ∀ (l : List FieldMetadata) (seen : List String),
      ((dedupByName seen l).map FieldMetadata.name).Nodup := by
  intro l
  induction l with
  | nil => intro seen; simp [dedupByName]
  | cons x rest ih =>
    intro seen
    rw [dedupByName]
    by_cases hx : seen.contains x.name
    · simp only [hx, if_pos]
      exact ih seen
    · simp only [hx, if_neg, Bool.false_eq_true, not_false_iff, List.map_cons,
        List.nodup_cons]
      refine ⟨?_, ih _⟩
      intro hmem
      obtain ⟨e, he, hname⟩ := List.mem_map.mp hmem
      exact dedupByName_not_seen rest _ e he (hname ▸ List.mem_cons_self _ _)

/-- For a name outside the seen-set, the dedup pass preserves the first
entry found for that name. -/
theorem dedupByName_find? :
    ∀ (l : List FieldMetadata) (seen : List String) (s : String), s ∉ seen →
      (dedupByName seen l).find? (fun e => e.name == s)
        = l.find? (fun e => e.name == s) := by
  intro l
  induction l with
  | nil => intro seen s hs; simp [dedupByName]
  | cons x rest ih =>
    intro seen s hs
    rw [dedupByName]
    by_cases hx : seen.contains x.name
    · simp only [hx, if_pos]
      have hxs : (x.name == s) = false := by
        by_cases h : x.name = s
        · exact absurd (h ▸ (List.elem_iff.mp hx)) hs
        · simp [h]
      rw [List.find?_cons, hxs]
      exact ih seen s hs
    · simp only [hx, if_neg, Bool.false_eq_true, not_false_iff]
      rw [List.find?_cons, List.find?_cons]
      cases hxs : (x.name == s) with
      | true => rfl
      | false =>
        refine ih _ s ?_
        intro hmem
        rcases List.mem_cons.mp hmem with h | h
        · simp [h] at hxs
        · exact hs h

/-- C6: for every root schema, prefix and category, the catalog produced by
the builder contains no two entries with the same dot-joined field path,
and the entry kept for any path is the first entry produced for that path
by the raw depth-first visit, which walks fields and variant branches in
declaration order. -/
theorem C6_catalog_paths_unique :
    (∀ (fields : List PyField) (pre : String) (cat : Option String),
      ((walk_model_fields fields pre cat).map FieldMetadata.name).Nodup) ∧
    (∀ (fields : List PyField) (pre : String) (cat : Option String) (s : String),
      (walk_model_fields fields pre cat).find? (fun e => e.name == s)
        = (walkRawFields fields pre cat).find? (fun e => e.name == s)) := by
  constructor
  · intro fields pre cat
    exact dedupByName_nodup _ []
  · intro fields pre cat s
    exact dedupByName_find? _ [] s (List.not_mem_nil s)

mutual
/-- Every raw catalog entry's operator set is the table lookup of its
recorded type name. -/
theorem opsRaw : ∀ (fields : List PyField) (pre : String) (cat : Option String),
    ∀ e ∈ walkRawFields fields pre cat, e.operators = DEFAULT_OPERATORS_get e.type := by
  intro fields pre cat
  match fields with
  | [] => intro e he; simp [walkRawFields] at he
  | .mk fname ann dflt descr exs :: rest =>
    intro e he
    match ann with
    | .pyunion ts =>
      rcases List.mem_append.mp he with h | h
      · exact opsArgs ts _ _ _ _ _ e h
      · exact opsRaw rest pre cat e h
    | .pylist t =>
      rcases List.mem_append.mp he with h | h
      · exact opsArg t _ _ _ _ _ e h
      · exact opsRaw rest pre cat e h
    | .pydict k v =>
      rcases List.mem_append.mp he with h | h
      · rcases List.mem_append.mp h with h2 | h2
        · exact opsArg k _ _ _ _ _ e h2
        · exact opsArg v _ _ _ _ _ e h2
      · exact opsRaw rest pre cat e h
    | .pystr =>
      rcases List.mem_append.mp he with h | h
      · exact opsArg .pystr _ _ _ _ _ e h
      · exact opsRaw rest pre cat e h
    | .pyint =>
      rcases List.mem_append.mp he with h | h
      · exact opsArg .pyint _ _ _ _ _ e h
      · exact opsRaw rest pre cat e h
    | .pyfloat =>
      rcases List.mem_append.mp he with h | h
      · exact opsArg .pyfloat _ _ _ _ _ e h
      · exact opsRaw rest pre cat e h
    | .pybool =>
      rcases List.mem_append.mp he with h | h
      · exact opsArg .pybool _ _ _ _ _ e h
      · exact opsRaw rest pre cat e h
    | .pyany =>
      rcases List.mem_append.mp he with h | h
      · exact opsArg .pyany _ _ _ _ _ e h
      · exact opsRaw rest pre cat e h
    | .pynone =>
      rcases List.mem_append.mp he with h | h
      · exact opsArg .pynone _ _ _ _ _ e h
      · exact opsRaw rest pre cat e h
    | .pymodel mn mfs =>
      rcases List.mem_append.mp he with h | h
      · exact opsArg (.pymodel mn mfs) _ _ _ _ _ e h
      · exact opsRaw rest pre cat e h
    | .pyenum en cs =>
      rcases List.mem_append.mp he with h | h
      · exact opsArg (.pyenum en cs) _ _ _ _ _ e h
      · exact opsRaw rest pre cat e h
    | .pystrenum en vs =>
      rcases List.mem_append.mp he with h | h
      · exact opsArg (.pystrenum en vs) _ _ _ _ _ e h
      · exact opsRaw rest pre cat e h
    | .pyliteral ns =>
      rcases List.mem_append.mp he with h | h
      · exact opsArg (.pyliteral ns) _ _ _ _ _ e h
      · exact opsRaw rest pre cat e h
    | .pynamed cn =>
      rcases List.mem_append.mp he with h | h
      · exact opsArg (.pynamed cn) _ _ _ _ _ e h
      · exact opsRaw rest pre cat e h
termination_by structural fields => fields

/-- Union-loop version of `opsRaw`. -/
theorem opsArgs : ∀ (ts : List PyType) (fn ft d : String) (ex : Option String)
    (cur : String),
    ∀ e ∈ walkArgsList ts fn ft d (DEFAULT_OPERATORS_get ft) ex cur,
      e.operators = DEFAULT_OPERATORS_get e.type := by
  intro ts fn ft d ex cur
  match ts with
  | [] => intro e he; simp [walkArgsList] at he
  | a :: rest =>
    intro e he
    rcases List.mem_append.mp he with h | h
    · exact opsArg a fn ft d ex cur e h
    · exact opsArgs rest fn ft d ex cur e h
termination_by structural ts => ts

/-- Single-argument version of `opsRaw`. -/
theorem opsArg : ∀ (arg : PyType) (fn ft d : String) (ex : Option String)
    (cur : String),
    ∀ e ∈ walkArg arg fn ft d (DEFAULT_OPERATORS_get ft) ex cur,
      e.operators = DEFAULT_OPERATORS_get e.type := by
  intro arg fn ft d ex cur
  match arg with
  | .pynone => intro e he; simp [walkArg] at he
  | .pymodel mn mfs =>
    intro e he
    exact opsRaw mfs fn (some cur) e (dedupByName_subset _ [] e he)
  | .pylist (.pymodel mn mfs) =>
    intro e he
    exact opsRaw mfs fn (some cur) e (dedupByName_subset _ [] e he)
  | .pylist .pystr | .pylist .pyint | .pylist .pyfloat | .pylist .pybool
  | .pylist .pyany | .pylist .pynone | .pylist (.pylist _)
  | .pylist (.pydict _ _) | .pylist (.pyunion _) | .pylist (.pyenum _ _)
  | .pylist (.pystrenum _ _) | .pylist (.pyliteral _) | .pylist (.pynamed _) =>
    intro e he
    rw [List.mem_singleton.mp he]
  | .pystr | .pyint | .pyfloat | .pybool | .pyany | .pydict _ _ | .pyunion _
  | .pyenum _ _ | .pystrenum _ _ | .pyliteral _ | .pynamed _ =>
    intro e he
    rw [List.mem_singleton.mp he]
termination_by structural arg => arg
end

/-- A non-`NoneType`, non-model-like loop argument produces exactly one
catalog entry. -/
theorem walkArg_entry (arg : PyType) (fn ft d : String)
    (ops : Option (List String)) (ex : Option String) (cur : String)
    (h1 : arg ≠ .pynone) (h2 : isModelLike arg = false) :
    walkArg arg fn ft d ops ex cur = [⟨fn, ft, some d, ops, ex, some cur⟩] := by
  match arg with
  | .pystr | .pyint | .pyfloat | .pybool | .pyany | .pydict _ _ | .pyunion _
  | .pyenum _ _ | .pystrenum _ _ | .pyliteral _ | .pynamed _ => rfl
  | .pynone => exact absurd rfl h1
  | .pymodel _ _ => simp [isModelLike] at h2
  | .pylist t =>
    match t with
    | .pymodel _ _ => simp [isModelLike] at h2
    | .pystr | .pyint | .pyfloat | .pybool | .pyany | .pynone | .pylist _
    | .pydict _ _ | .pyunion _ | .pyenum _ _ | .pystrenum _ _ | .pyliteral _
    | .pynamed _ => rfl

/-- Entries produced for one union member are in the union loop's output. -/
theorem walkArgsList_mem : ∀ (ts : List PyType) (a : PyType)
    (fn ft d : String) (ops : Option (List String)) (ex : Option String)
    (cur : String) (e : FieldMetadata), a ∈ ts →
    e ∈ walkArg a fn ft d ops ex cur → e ∈ walkArgsList ts fn ft d ops ex cur := by
  intro ts
  induction ts with
  | nil => intro a fn ft d ops ex cur e ha; simp at ha
  | cons b rest ih =>
    intro a fn ft d ops ex cur e ha he
    rcases List.mem_cons.mp ha with rfl | ha
    · exact List.mem_append_left _ he
    · exact List.mem_append_right _ (ih a fn ft d ops ex cur e ha he)

/-- A non-`NoneType`, non-model-like loop argument lists its own entry. -/
theorem walkArg_self_mem (arg : PyType) (fn ft d : String)
    (ops : Option (List String)) (ex : Option String) (cur : String)
    (h1 : arg ≠ .pynone) (h2 : isModelLike arg = false) :
    (⟨fn, ft, some d, ops, ex, some cur⟩ : FieldMetadata) ∈
      walkArg arg fn ft d ops ex cur := by
  rw [walkArg_entry arg fn ft d ops ex cur h1 h2]
  exact List.mem_singleton_self _

/-- A leaf argument of the head field contributes that field's entry to the
raw walk of a cons list. -/
theorem leafRawCons (fname : String) (ann : PyType) (dflt : TValue)
    (d : Option String) (ex : List String) (rest : List PyField)
    (pre : String) (cat : Option String) (arg : PyType)
    (harg : arg ∈ pyFieldArgs ann) (hne : arg ≠ .pynone)
    (hml : isModelLike arg = false) :
    (⟨joinPath pre fname, get_type_name ann, some (pyOrStr d "No description"),
      DEFAULT_OPERATORS_get (get_type_name ann), List.head? ex,
      some (if pre = "" then fname else pyOrStr cat (firstSeg pre))⟩ : FieldMetadata)
    ∈ walkRawFields (PyField.mk fname ann dflt d ex :: rest) pre cat := by
  cases ann with
  | pyunion ts =>
    have ha : arg ∈ ts := harg
    exact List.mem_append_left _
      (walkArgsList_mem ts arg _ _ _ _ _ _ _ ha
        (walkArg_self_mem _ _ _ _ _ _ _ hne hml))
  | pylist t =>
    obtain rfl := List.mem_singleton.mp harg
    exact List.mem_append_left _ (walkArg_self_mem _ _ _ _ _ _ _ hne hml)
  | pydict k v =>
    rcases List.mem_cons.mp harg with rfl | harg2
    · exact List.mem_append_left _
        (List.mem_append_left _ (walkArg_self_mem _ _ _ _ _ _ _ hne hml))
    · obtain rfl := List.mem_singleton.mp harg2
      exact List.mem_append_left _
        (List.mem_append_right _ (walkArg_self_mem _ _ _ _ _ _ _ hne hml))
  | pynone => exact absurd (List.mem_singleton.mp harg) hne
  | pymodel mn mfs =>
    obtain rfl := List.mem_singleton.mp harg
    simp [isModelLike] at hml
  | pystr =>
    obtain rfl := List.mem_singleton.mp harg
    exact List.mem_append_left _ (walkArg_self_mem _ _ _ _ _ _ _ hne hml)
  | pyint =>
    obtain rfl := List.mem_singleton.mp harg
    exact List.mem_append_left _ (walkArg_self_mem _ _ _ _ _ _ _ hne hml)
  | pyfloat =>
    obtain rfl := List.mem_singleton.mp harg
    exact List.mem_append_left _ (walkArg_self_mem _ _ _ _ _ _ _ hne hml)
  | pybool =>
    obtain rfl := List.mem_singleton.mp harg
    exact List.mem_append_left _ (walkArg_self_mem _ _ _ _ _ _ _ hne hml)
  | pyany =>
    obtain rfl := List.mem_singleton.mp harg
    exact List.mem_append_left _ (walkArg_self_mem _ _ _ _ _ _ _ hne hml)
  | pyenum en cs =>
    obtain rfl := List.mem_singleton.mp harg
    exact List.mem_append_left _ (walkArg_self_mem _ _ _ _ _ _ _ hne hml)
  | pystrenum en vs =>
    obtain rfl := List.mem_singleton.mp harg
    exact List.mem_append_left _ (walkArg_self_mem _ _ _ _ _ _ _ hne hml)
  | pyliteral ns =>
    obtain rfl := List.mem_singleton.mp harg
    exact List.mem_append_left _ (walkArg_self_mem _ _ _ _ _ _ _ hne hml)
  | pynamed cn =>
    obtain rfl := List.mem_singleton.mp harg
    exact List.mem_append_left _ (walkArg_self_mem _ _ _ _ _ _ _ hne hml)

/-- A leaf argument of a declared field always contributes an entry at the
field's joined path to the raw walk. -/
theorem leafRaw : ∀ (fields : List PyField) (pre : String) (cat : Option String)
    (fname : String) (ann : PyType) (dflt : TValue) (d : Option String)
    (ex : List String) (arg : PyType),
    PyField.mk fname ann dflt d ex ∈ fields → arg ∈ pyFieldArgs ann →
    arg ≠ .pynone → isModelLike arg = false →
    ∃ e ∈ walkRawFields fields pre cat, e.name = joinPath pre fname := by
  intro fields pre cat fname ann dflt d ex arg
  match fields with
  | [] => intro hf _ _ _; simp at hf
  | .mk gn gann gdflt gdesc gex :: rest =>
    intro hf harg hne hml
    rcases List.mem_cons.mp hf with heq | hf2
    · cases heq
      exact ⟨_, leafRawCons fname ann dflt d ex rest pre cat arg harg hne hml, rfl⟩
    · obtain ⟨e, he, hn⟩ :=
        leafRaw rest pre cat fname ann dflt d ex arg hf2 harg hne hml
      refine ⟨e, ?_, hn⟩
      match gann with
      | .pyunion ts => exact List.mem_append_right _ he
      | .pylist t => exact List.mem_append_right _ he
      | .pydict k v => exact List.mem_append_right _ he
      | .pystr => exact List.mem_append_right _ he
      | .pyint => exact List.mem_append_right _ he
      | .pyfloat => exact List.mem_append_right _ he
      | .pybool => exact List.mem_append_right _ he
      | .pyany => exact List.mem_append_right _ he
      | .pynone => exact List.mem_append_right _ he
      | .pymodel mn mfs => exact List.mem_append_right _ he
      | .pyenum en cs => exact List.mem_append_right _ he
      | .pystrenum en vs => exact List.mem_append_right _ he
      | .pyliteral ns => exact List.mem_append_right _ he
      | .pynamed cn => exact List.mem_append_right _ he
termination_by structural fields => fields

/-- If the raw walk lists an entry at some path, so does the deduped
catalog. -/
theorem walk_listed (fields : List PyField) (pre : String) (cat : Option String)
    (s : String) (h : ∃ e ∈ walkRawFields fields pre cat, e.name = s) :
    ∃ e ∈ walk_model_fields fields pre cat, e.name = s := by
  obtain ⟨e, he, hname⟩ := h
  have h1 : ((walkRawFields fields pre cat).find? (fun x => x.name == s)).isSome := by
    apply List.find?_isSome.mpr
    exact ⟨e, he, by simp [hname]⟩
  rw [← dedupByName_find? _ [] s (List.not_mem_nil s)] at h1
  obtain ⟨x, hx⟩ := Option.isSome_iff_exists.mp h1
  refine ⟨x, List.mem_of_find?_eq_some hx, ?_⟩
  simpa using List.find?_some hx

/-- C7 counterexample: the claim that a field whose type category has no
table entry is still listed fails for nested-schema fields.  The field
`armor` of the counterexample schema has type name `Comp`, which has no
`DEFAULT_OPERATORS` entry, yet the catalog contains no entry named
`armor` — only its subfield's entry `armor.inner`. -/
theorem C7_counterexample :
    DEFAULT_OPERATORS_get (get_type_name (pyopt (.pymodel "Comp" subSchemaC))) = none ∧
    (walk_model_fields nestedFieldSchema "" none).find? (fun e => e.name == "armor") = none ∧
    (walk_model_fields nestedFieldSchema "" none).map FieldMetadata.name = ["armor.inner"] := by
  refine ⟨by decide, by decide, by decide⟩

/-- C7 amended: every catalog entry's operator set is the fixed
`DEFAULT_OPERATORS` lookup of its type-category name (whose contents are
exactly the table of the claim, with unknown categories mapped to no
operators), and every non-`NoneType`, non-nested-schema argument of a
declared field is still listed in the catalog under the field's path; a
field of nested-schema type (or of list-of-nested-schema type) is not
itself listed — its subfields' entries replace it. -/
theorem C7_operator_table :
    (DEFAULT_OPERATORS_get "integer" = some ["$eq", "$gte", "$lte"] ∧
     DEFAULT_OPERATORS_get "float" = some ["$eq", "$gte", "$lte"] ∧
     DEFAULT_OPERATORS_get "string" = some ["$eq", "$regex"] ∧
     DEFAULT_OPERATORS_get "array[string]" = some ["$in", "$regex"] ∧
     DEFAULT_OPERATORS_get "array[integer]" = some ["$in"] ∧
     DEFAULT_OPERATORS_get "boolean" = some ["$eq"] ∧
     DEFAULT_OPERATORS_get "dict[string, any]"
       = some ["$eq", "$regex", "$gt", "$gte", "$lt", "$lte"] ∧
     DEFAULT_OPERATORS_get "datetime" = none) ∧
    (∀ (fields : List PyField) (pre : String) (cat : Option String),
      ∀ e ∈ walk_model_fields fields pre cat,
        e.operators = DEFAULT_OPERATORS_get e.type) ∧
    (∀ (fields : List PyField) (pre : String) (cat : Option String)
      (fname : String) (ann : PyType) (dflt : TValue) (d : Option String)
      (ex : List String) (arg : PyType),
      PyField.mk fname ann dflt d ex ∈ fields → arg ∈ pyFieldArgs ann →
      arg ≠ .pynone → isModelLike arg = false →
      ∃ e ∈ walk_model_fields fields pre cat, e.name = joinPath pre fname) := by
  refine ⟨by decide, ?_, ?_⟩
  · intro fields pre cat e he
    exact opsRaw fields pre cat e (dedupByName_subset _ [] e he)
  · intro fields pre cat fname ann dflt d ex arg hf harg hne hml
    exact walk_listed fields pre cat (joinPath pre fname)
      (leafRaw fields pre cat fname ann dflt d ex arg hf harg hne hml)

/-- Witness for C7: the operator conjunct at the concrete entry produced by
walking the counterexample subschema, and the listing conjunct at its leaf
int field. -/
theorem C7_witness :
    ((⟨"armor.inner", "integer", some "No description",
        some ["$eq", "$gte", "$lte"], none, some "armor"⟩ : FieldMetadata).operators
      = DEFAULT_OPERATORS_get "integer") ∧
    (∃ e ∈ walk_model_fields subSchemaC "" none, e.name = joinPath "" "inner") := by
  constructor
  · exact C7_operator_table.2.1 nestedFieldSchema "" none _ (by decide)
  · exact C7_operator_table.2.2 subSchemaC "" none "inner" .pyint .vNone none [] .pyint
      (List.mem_cons_self _ _) (List.mem_singleton_self _)
      (fun h => PyType.noConfusion h) rfl

/-- A path joined onto a nonempty prefix is nonempty. -/
theorem joinPath_ne_empty (pre f : String) (h : pre ≠ "") : joinPath pre f ≠ "" := by
  simp only [joinPath, h, if_neg, if_false]
  intro h0
  have h1 : (pre ++ "." ++ f).data = ("" : String).data := congrArg String.data h0
  simp [String.data_append] at h1

mutual
/-- With a nonempty prefix and a nonempty category override, every raw walk
entry carries the override as its category tag. -/
theorem catRaw : ∀ (fields : List PyField) (pre c : String), pre ≠ "" → c ≠ "" →
    ∀ e ∈ walkRawFields fields pre (some c), e.category = some c := by
  intro fields pre c hpre hc
  match fields with
  | [] => intro e he; simp [walkRawFields] at he
  | .mk fname ann dflt descr exs :: rest =>
    intro e he
    have hcur : (if pre = "" then fname else pyOrStr (some c) (firstSeg pre)) = c := by
      simp [hpre, pyOrStr, hc]
    match ann with
    | .pyunion ts =>
      rcases List.mem_append.mp he with h | h
      · have h2 := catArgs ts (joinPath pre fname) _ _ _ _ _
          (joinPath_ne_empty pre fname hpre) (by rw [hcur]; exact hc) e h
        rw [hcur] at h2
        exact h2
      · exact catRaw rest pre c hpre hc e h
    | .pylist t =>
      rcases List.mem_append.mp he with h | h
      · have h2 := catArg t (joinPath pre fname) _ _ _ _ _
          (joinPath_ne_empty pre fname hpre) (by rw [hcur]; exact hc) e h
        rw [hcur] at h2
        exact h2
      · exact catRaw rest pre c hpre hc e h
    | .pydict k v =>
      rcases List.mem_append.mp he with h | h
      · rcases List.mem_append.mp h with h2 | h2
        · have h3 := catArg k (joinPath pre fname) _ _ _ _ _
            (joinPath_ne_empty pre fname hpre) (by rw [hcur]; exact hc) e h2
          rw [hcur] at h3
          exact h3
        · have h3 := catArg v (joinPath pre fname) _ _ _ _ _
            (joinPath_ne_empty pre fname hpre) (by rw [hcur]; exact hc) e h2
          rw [hcur] at h3
          exact h3
      · exact catRaw rest pre c hpre hc e h
    | .pystr =>
      rcases List.mem_append.mp he with h | h
      · have h2 := catArg PyType.pystr (joinPath pre fname) _ _ _ _ _
          (joinPath_ne_empty pre fname hpre) (by rw [hcur]; exact hc) e h
        rw [hcur] at h2
        exact h2
      · exact catRaw rest pre c hpre hc e h
    | .pyint =>
      rcases List.mem_append.mp he with h | h
      · have h2 := catArg PyType.pyint (joinPath pre fname) _ _ _ _ _
          (joinPath_ne_empty pre fname hpre) (by rw [hcur]; exact hc) e h
        rw [hcur] at h2
        exact h2
      · exact catRaw rest pre c hpre hc e h
    | .pyfloat =>
      rcases List.mem_append.mp he with h | h
      · have h2 := catArg PyType.pyfloat (joinPath pre fname) _ _ _ _ _
          (joinPath_ne_empty pre fname hpre) (by rw [hcur]; exact hc) e h
        rw [hcur] at h2
        exact h2
      · exact catRaw rest pre c hpre hc e h
    | .pybool =>
      rcases List.mem_append.mp he with h | h
      · have h2 := catArg PyType.pybool (joinPath pre fname) _ _ _ _ _
          (joinPath_ne_empty pre fname hpre) (by rw [hcur]; exact hc) e h
        rw [hcur] at h2
        exact h2
      · exact catRaw rest pre c hpre hc e h
    | .pyany =>
      rcases List.mem_append.mp he with h | h
      · have h2 := catArg PyType.pyany (joinPath pre fname) _ _ _ _ _
          (joinPath_ne_empty pre fname hpre) (by rw [hcur]; exact hc) e h
        rw [hcur] at h2
        exact h2
      · exact catRaw rest pre c hpre hc e h
    | .pynone =>
      rcases List.mem_append.mp he with h | h
      · have h2 := catArg PyType.pynone (joinPath pre fname) _ _ _ _ _
          (joinPath_ne_empty pre fname hpre) (by rw [hcur]; exact hc) e h
        rw [hcur] at h2
        exact h2
      · exact catRaw rest pre c hpre hc e h
    | .pymodel mn mfs =>
      rcases List.mem_append.mp he with h | h
      · have h2 := catArg (PyType.pymodel mn mfs) (joinPath pre fname) _ _ _ _ _
          (joinPath_ne_empty pre fname hpre) (by rw [hcur]; exact hc) e h
        rw [hcur] at h2
        exact h2
      · exact catRaw rest pre c hpre hc e h
    | .pyenum en cs =>
      rcases List.mem_append.mp he with h | h
      · have h2 := catArg (PyType.pyenum en cs) (joinPath pre fname) _ _ _ _ _
          (joinPath_ne_empty pre fname hpre) (by rw [hcur]; exact hc) e h
        rw [hcur] at h2
        exact h2
      · exact catRaw rest pre c hpre hc e h
    | .pystrenum en vs =>
      rcases List.mem_append.mp he with h | h
      · have h2 := catArg (PyType.pystrenum en vs) (joinPath pre fname) _ _ _ _ _
          (joinPath_ne_empty pre fname hpre) (by rw [hcur]; exact hc) e h
        rw [hcur] at h2
        exact h2
      · exact catRaw rest pre c hpre hc e h
    | .pyliteral ns =>
      rcases List.mem_append.mp he with h | h
      · have h2 := catArg (PyType.pyliteral ns) (joinPath pre fname) _ _ _ _ _
          (joinPath_ne_empty pre fname hpre) (by rw [hcur]; exact hc) e h
        rw [hcur] at h2
        exact h2
      · exact catRaw rest pre c hpre hc e h
    | .pynamed cn =>
      rcases List.mem_append.mp he with h | h
      · have h2 := catArg (PyType.pynamed cn) (joinPath pre fname) _ _ _ _ _
          (joinPath_ne_empty pre fname hpre) (by rw [hcur]; exact hc) e h
        rw [hcur] at h2
        exact h2
      · exact catRaw rest pre c hpre hc e h
termination_by structural fields => fields

/-- Union-loop version of `catRaw`. -/
theorem catArgs : ∀ (ts : List PyType) (fn ft d : String)
    (ops : Option (List String)) (ex : Option String) (cur : String),
    fn ≠ "" → cur ≠ "" →
    ∀ e ∈ walkArgsList ts fn ft d ops ex cur, e.category = some cur := by
  intro ts fn ft d ops ex cur hfn hcur
  match ts with
  | [] => intro e he; simp [walkArgsList] at he
  | a :: rest =>
    intro e he
    rcases List.mem_append.mp he with h | h
    · exact catArg a fn ft d ops ex cur hfn hcur e h
    · exact catArgs rest fn ft d ops ex cur hfn hcur e h
termination_by structural ts => ts

/-- Single-argument version of `catRaw`. -/
theorem catArg : ∀ (arg : PyType) (fn ft d : String)
    (ops : Option (List String)) (ex : Option String) (cur : String),
    fn ≠ "" → cur ≠ "" →
    ∀ e ∈ walkArg arg fn ft d ops ex cur, e.category = some cur := by
  intro arg fn ft d ops ex cur hfn hcur
  match arg with
  | .pynone => intro e he; simp [walkArg] at he
  | .pymodel mn mfs =>
    intro e he
    exact catRaw mfs fn cur hfn hcur e (dedupByName_subset _ [] e he)
  | .pylist (.pymodel mn mfs) =>
    intro e he
    exact catRaw mfs fn cur hfn hcur e (dedupByName_subset _ [] e he)
  | .pylist .pystr | .pylist .pyint | .pylist .pyfloat | .pylist .pybool
  | .pylist .pyany | .pylist .pynone | .pylist (.pylist _)
  | .pylist (.pydict _ _) | .pylist (.pyunion _) | .pylist (.pyenum _ _)
  | .pylist (.pystrenum _ _) | .pylist (.pyliteral _) | .pylist (.pynamed _) =>
    intro e he
    rw [List.mem_singleton.mp he]
  | .pystr | .pyint | .pyfloat | .pybool | .pyany | .pydict _ _ | .pyunion _
  | .pyenum _ _ | .pystrenum _ _ | .pyliteral _ | .pynamed _ =>
    intro e he
    rw [List.mem_singleton.mp he]
termination_by structural arg => arg
end

/-- In a root walk (empty prefix), every raw entry's category tag is the
name of one of the schema's top-level fields — `current_category = name`
for the top-level loop, and the nested recursion receives that name as its
override — so any category override passed to the root walk is ignored. -/
theorem catRoot : ∀ (fields : List PyField) (cat : Option String),
    (∀ f ∈ fields, PyField.fname f ≠ "") →
    ∀ e ∈ walkRawFields fields "" cat,
      ∃ f ∈ fields, e.category = some (PyField.fname f) := by
  intro fields cat
  match fields with
  | [] => intro _ e he; simp [walkRawFields] at he
  | .mk gn gann gdflt gdesc gex :: rest =>
    intro hnames e he
    have hgn : gn ≠ "" := hnames _ (List.mem_cons_self _ _)
    have hfn : joinPath "" gn ≠ "" := hgn
    have hcur : (if ("" : String) = "" then gn else pyOrStr cat (firstSeg "")) ≠ "" := hgn
    match gann with
    | .pyunion ts =>
      rcases List.mem_append.mp he with h | h
      · refine ⟨_, List.mem_cons_self _ _, ?_⟩
        have h2 := catArgs ts (joinPath "" gn) _ _ _ _ _ hfn hcur e h
        simpa [PyField.fname] using h2
      · obtain ⟨f, hf, hc⟩ :=
          catRoot rest cat (fun f hf => hnames f (List.mem_cons_of_mem _ hf)) e h
        exact ⟨f, List.mem_cons_of_mem _ hf, hc⟩
    | .pydict k v =>
      rcases List.mem_append.mp he with h | h
      · rcases List.mem_append.mp h with h2 | h2
        · refine ⟨_, List.mem_cons_self _ _, ?_⟩
          have h3 := catArg k (joinPath "" gn) _ _ _ _ _ hfn hcur e h2
          simpa [PyField.fname] using h3
        · refine ⟨_, List.mem_cons_self _ _, ?_⟩
          have h3 := catArg v (joinPath "" gn) _ _ _ _ _ hfn hcur e h2
          simpa [PyField.fname] using h3
      · obtain ⟨f, hf, hc⟩ :=
          catRoot rest cat (fun f hf => hnames f (List.mem_cons_of_mem _ hf)) e h
        exact ⟨f, List.mem_cons_of_mem _ hf, hc⟩
    | .pylist t =>
      rcases List.mem_append.mp he with h | h
      · refine ⟨_, List.mem_cons_self _ _, ?_⟩
        have h2 := catArg t (joinPath "" gn) _ _ _ _ _ hfn hcur e h
        simpa [PyField.fname] using h2
      · obtain ⟨f, hf, hc⟩ :=
          catRoot rest cat (fun f hf => hnames f (List.mem_cons_of_mem _ hf)) e h
        exact ⟨f, List.mem_cons_of_mem _ hf, hc⟩
    | .pystr =>
      rcases List.mem_append.mp he with h | h
      · refine ⟨_, List.mem_cons_self _ _, ?_⟩
        have h2 := catArg .pystr (joinPath "" gn) _ _ _ _ _ hfn hcur e h
        simpa [PyField.fname] using h2
      · obtain ⟨f, hf, hc⟩ :=
          catRoot rest cat (fun f hf => hnames f (List.mem_cons_of_mem _ hf)) e h
        exact ⟨f, List.mem_cons_of_mem _ hf, hc⟩
    | .pyint =>
      rcases List.mem_append.mp he with h | h
      · refine ⟨_, List.mem_cons_self _ _, ?_⟩
        have h2 := catArg .pyint (joinPath "" gn) _ _ _ _ _ hfn hcur e h
        simpa [PyField.fname] using h2
      · obtain ⟨f, hf, hc⟩ :=
          catRoot rest cat (fun f hf => hnames f (List.mem_cons_of_mem _ hf)) e h
        exact ⟨f, List.mem_cons_of_mem _ hf, hc⟩
    | .pyfloat =>
      rcases List.mem_append.mp he with h | h
      · refine ⟨_, List.mem_cons_self _ _, ?_⟩
        have h2 := catArg .pyfloat (joinPath "" gn) _ _ _ _ _ hfn hcur e h
        simpa [PyField.fname] using h2
      · obtain ⟨f, hf, hc⟩ :=
          catRoot rest cat (fun f hf => hnames f (List.mem_cons_of_mem _ hf)) e h
        exact ⟨f, List.mem_cons_of_mem _ hf, hc⟩
    | .pybool =>
      rcases List.mem_append.mp he with h | h
      · refine ⟨_, List.mem_cons_self _ _, ?_⟩
        have h2 := catArg .pybool (joinPath "" gn) _ _ _ _ _ hfn hcur e h
        simpa [PyField.fname] using h2
      · obtain ⟨f, hf, hc⟩ :=
          catRoot rest cat (fun f hf => hnames f (List.mem_cons_of_mem _ hf)) e h
        exact ⟨f, List.mem_cons_of_mem _ hf, hc⟩
    | .pyany =>
      rcases List.mem_append.mp he with h | h
      · refine ⟨_, List.mem_cons_self _ _, ?_⟩
        have h2 := catArg .pyany (joinPath "" gn) _ _ _ _ _ hfn hcur e h
        simpa [PyField.fname] using h2
      · obtain ⟨f, hf, hc⟩ :=
          catRoot rest cat (fun f hf => hnames f (List.mem_cons_of_mem _ hf)) e h
        exact ⟨f, List.mem_cons_of_mem _ hf, hc⟩
    | .pynone =>
      rcases List.mem_append.mp he with h | h
      · refine ⟨_, List.mem_cons_self _ _, ?_⟩
        have h2 := catArg .pynone (joinPath "" gn) _ _ _ _ _ hfn hcur e h
        simpa [PyField.fname] using h2
      · obtain ⟨f, hf, hc⟩ :=
          catRoot rest cat (fun f hf => hnames f (List.mem_cons_of_mem _ hf)) e h
        exact ⟨f, List.mem_cons_of_mem _ hf, hc⟩
    | .pymodel mn mfs =>
      rcases List.mem_append.mp he with h | h
      · refine ⟨_, List.mem_cons_self _ _, ?_⟩
        have h2 := catArg (.pymodel mn mfs) (joinPath "" gn) _ _ _ _ _ hfn hcur e h
        simpa [PyField.fname] using h2
      · obtain ⟨f, hf, hc⟩ :=
          catRoot rest cat (fun f hf => hnames f (List.mem_cons_of_mem _ hf)) e h
        exact ⟨f, List.mem_cons_of_mem _ hf, hc⟩
    | .pyenum en cs =>
      rcases List.mem_append.mp he with h | h
      · refine ⟨_, List.mem_cons_self _ _, ?_⟩
        have h2 := catArg (.pyenum en cs) (joinPath "" gn) _ _ _ _ _ hfn hcur e h
        simpa [PyField.fname] using h2
      · obtain ⟨f, hf, hc⟩ :=
          catRoot rest cat (fun f hf => hnames f (List.mem_cons_of_mem _ hf)) e h
        exact ⟨f, List.mem_cons_of_mem _ hf, hc⟩
    | .pystrenum en vs =>
      rcases List.mem_append.mp he with h | h
      · refine ⟨_, List.mem_cons_self _ _, ?_⟩
        have h2 := catArg (.pystrenum en vs) (joinPath "" gn) _ _ _ _ _ hfn hcur e h
        simpa [PyField.fname] using h2
      · obtain ⟨f, hf, hc⟩ :=
          catRoot rest cat (fun f hf => hnames f (List.mem_cons_of_mem _ hf)) e h
        exact ⟨f, List.mem_cons_of_mem _ hf, hc⟩
    | .pyliteral ns =>
      rcases List.mem_append.mp he with h | h
      · refine ⟨_, List.mem_cons_self _ _, ?_⟩
        have h2 := catArg (.pyliteral ns) (joinPath "" gn) _ _ _ _ _ hfn hcur e h
        simpa [PyField.fname] using h2
      · obtain ⟨f, hf, hc⟩ :=
          catRoot rest cat (fun f hf => hnames f (List.mem_cons_of_mem _ hf)) e h
        exact ⟨f, List.mem_cons_of_mem _ hf, hc⟩
    | .pynamed cn =>
      rcases List.mem_append.mp he with h | h
      · refine ⟨_, List.mem_cons_self _ _, ?_⟩
        have h2 := catArg (.pynamed cn) (joinPath "" gn) _ _ _ _ _ hfn hcur e h
        simpa [PyField.fname] using h2
      · obtain ⟨f, hf, hc⟩ :=
          catRoot rest cat (fun f hf => hnames f (List.mem_cons_of_mem _ hf)) e h
        exact ⟨f, List.mem_cons_of_mem _ hf, hc⟩
termination_by structural fields => fields

/-- C8 counterexample: a category override supplied to a root walk (empty
prefix) is ignored — `current_category = (category or ...) if prefix else
name` takes the `else` branch at the top level, so the nested recursion
receives the field's name, not the override.  Walking the nested schema
with override `Override` tags the nested field `alpha.beta` with `alpha`,
not `Override`, refuting the claim's override clause. -/
theorem C8_counterexample :
    (walk_model_fields c8Schema "" (some "Override")).map
      (fun e => (e.name, e.category)) = [("alpha.beta", some "alpha")] := by
  decide

/-- The raw walk of a nonempty schema is the head field's slice followed by
the walk of the remaining fields. -/
theorem walkRaw_decomp (f : PyField) (rest : List PyField) (pre : String)
    (cat : Option String) :
    walkRawFields (f :: rest) pre cat
      = fieldEntries f pre cat ++ walkRawFields rest pre cat := by
  match f with
  | .mk fname ann dflt descr exs =>
    match ann with
    | .pyunion ts => rfl
    | .pylist t => rfl
    | .pydict k v => rfl
    | .pystr => rfl
    | .pyint => rfl
    | .pyfloat => rfl
    | .pybool => rfl
    | .pyany => rfl
    | .pynone => rfl
    | .pymodel mn mfs => rfl
    | .pyenum en cs => rfl
    | .pystrenum en vs => rfl
    | .pyliteral ns => rfl
    | .pynamed cn => rfl

/-- In a root walk (empty prefix), every entry of a field's slice — the
field's own entry and all entries of nested schemas reached through it —
carries that field's name as its category tag, whatever override is
passed: `current_category = name` at the top level, and the nested
recursion receives that name. -/
theorem catField : ∀ (gn : String) (gann : PyType) (gdflt : TValue)
    (gdesc : Option String) (gex : List String) (cat : Option String),
    gn ≠ "" →
    ∀ e ∈ fieldEntries (.mk gn gann gdflt gdesc gex) "" cat,
      e.category = some gn := by
  intro gn gann gdflt gdesc gex cat hgn
  have hfn : joinPath "" gn ≠ "" := hgn
  have hcur : (if ("" : String) = "" then gn else pyOrStr cat (firstSeg "")) ≠ "" := hgn
  intro e he
  match gann with
  | .pyunion ts =>
    have h2 := catArgs ts (joinPath "" gn) _ _ _ _ _ hfn hcur e he
    simpa using h2
  | .pydict k v =>
    rcases List.mem_append.mp he with h | h
    · have h3 := catArg k (joinPath "" gn) _ _ _ _ _ hfn hcur e h
      simpa using h3
    · have h3 := catArg v (joinPath "" gn) _ _ _ _ _ hfn hcur e h
      simpa using h3
  | .pylist t =>
    have h2 := catArg t (joinPath "" gn) _ _ _ _ _ hfn hcur e he
    simpa using h2
  | .pystr =>
    have h2 := catArg .pystr (joinPath "" gn) _ _ _ _ _ hfn hcur e he
    simpa using h2
  | .pyint =>
    have h2 := catArg .pyint (joinPath "" gn) _ _ _ _ _ hfn hcur e he
    simpa using h2
  | .pyfloat =>
    have h2 := catArg .pyfloat (joinPath "" gn) _ _ _ _ _ hfn hcur e he
    simpa using h2
  | .pybool =>
    have h2 := catArg .pybool (joinPath "" gn) _ _ _ _ _ hfn hcur e he
    simpa using h2
  | .pyany =>
    have h2 := catArg .pyany (joinPath "" gn) _ _ _ _ _ hfn hcur e he
    simpa using h2
  | .pynone => exact absurd he (List.not_mem_nil e)
  | .pymodel mn mfs =>
    have h2 := catRaw mfs (joinPath "" gn)
      (if ("" : String) = "" then gn else pyOrStr cat (firstSeg "")) hfn hcur e
      (dedupByName_subset _ [] e he)
    simpa using h2
  | .pyenum en cs =>
    have h2 := catArg (.pyenum en cs) (joinPath "" gn) _ _ _ _ _ hfn hcur e he
    simpa using h2
  | .pystrenum en vs =>
    have h2 := catArg (.pystrenum en vs) (joinPath "" gn) _ _ _ _ _ hfn hcur e he
    simpa using h2
  | .pyliteral ns =>
    have h2 := catArg (.pyliteral ns) (joinPath "" gn) _ _ _ _ _ hfn hcur e he
    simpa using h2
  | .pynamed cn =>
    have h2 := catArg (.pynamed cn) (joinPath "" gn) _ _ _ _ _ hfn hcur e he
    simpa using h2

/-- C8 amended: the category tags of the catalog.  An override is honored
exactly when the walk starts from a nonempty prefix: then every entry
carries the override as its tag.  A root walk (empty prefix) ignores any
override: the raw walk decomposes into one slice per top-level field, and
every entry of a field's slice — the field's own entry and every nested
entry its subtree introduces — is tagged with that field's own name;
catalog entries are raw-walk entries, so the binding carries over to the
deduped catalog. -/
theorem C8_category_tags :
    (∀ (fields : List PyField) (pre c : String), pre ≠ "" → c ≠ "" →
      ∀ e ∈ walk_model_fields fields pre (some c), e.category = some c) ∧
    (∀ (f : PyField) (rest : List PyField) (pre : String) (cat : Option String),
      walkRawFields (f :: rest) pre cat
        = fieldEntries f pre cat ++ walkRawFields rest pre cat) ∧
    (∀ (fname : String) (ann : PyType) (dflt : TValue) (descr : Option String)
      (exs : List String) (cat : Option String), fname ≠ "" →
      ∀ e ∈ fieldEntries (.mk fname ann dflt descr exs) "" cat,
        e.category = some fname) ∧
    (∀ (fields : List PyField) (pre : String) (cat : Option String),
      ∀ e ∈ walk_model_fields fields pre cat, e ∈ walkRawFields fields pre cat) := by
  refine ⟨?_, ?_, ?_, ?_⟩
  · intro fields pre c hpre hc e he
    exact catRaw fields pre c hpre hc e (dedupByName_subset _ [] e he)
  · intro f rest pre cat
    exact walkRaw_decomp f rest pre cat
  · intro fname ann dflt descr exs cat hname e he
    exact catField fname ann dflt descr exs cat hname e he
  · intro fields pre cat e he
    exact dedupByName_subset _ [] e he

/-- Witness for C8: the nonempty-prefix walk honors the override `Ov` on
the nested schema's entry; the root walk of the counterexample schema
decomposes into its single field's slice; and that slice's nested entry
`alpha.beta` is tagged with the introducing field's own name `alpha`
despite the `Override` argument. -/
theorem C8_witness :
    ((⟨"p.alpha.beta", "integer", some "No description",
        some ["$eq", "$gte", "$lte"], none, some "Ov"⟩ : FieldMetadata).category
      = some "Ov") ∧
    (walkRawFields c8Schema "" (some "Override")
      = fieldEntries
          (.mk "alpha" (pyopt (.pymodel "Sub" [.mk "beta" .pyint .vNone none []]))
            .vNone none []) "" (some "Override")
        ++ walkRawFields [] "" (some "Override")) ∧
    ((⟨"alpha.beta", "integer", some "No description",
        some ["$eq", "$gte", "$lte"], none, some "alpha"⟩ : FieldMetadata).category
      = some "alpha") := by
  refine ⟨?_, ?_, ?_⟩
  · exact C8_category_tags.1 c8Schema "p" "Ov" (by decide) (by decide) _ (by decide)
  · exact C8_category_tags.2.1
      (.mk "alpha" (pyopt (.pymodel "Sub" [.mk "beta" .pyint .vNone none []]))
        .vNone none []) [] "" (some "Override")
  · exact C8_category_tags.2.2.1 "alpha"
      (pyopt (.pymodel "Sub" [.mk "beta" .pyint .vNone none []])) .vNone none []
      (some "Override") (by decide) _ (by decide)
